import Mathlib

/-!
Verification development for the proto2mysql repository: a shallow embedding of
the field codec (package pbconv, SerializeFieldAsString / ParseFromString) and
of the MySQL mapping layer (package proto2mysql: MessageTable, Init, the
statement builders, UpdateTableField, BatchInsert and the FindAll-style reads),
together with theorems settling the frozen specification claims.

Conventions of the embedding:
* Go strings are Lean `String`s; Go `[]byte` is `List Nat` with byte values
  below 256 at every construction site.
* Machine integers are `Int`/`Nat` with explicit range checks or wrapping
  where the source performs conversions.
* Fallible Go code returning `error` is modelled with `GoResult`, which also
  has a `panic` outcome for Go runtime panics (slice out of range,
  protoreflect type mismatches, method calls on nil reflection values).
* Floating point kinds appear in the kind enumeration (they are needed by the
  type-mapping table), but float values are represented by the canonical
  decimal string Go produces for them, and the float parsers of
  `strconv.ParseFloat` are passed as parameters where the codec needs them;
  no claim below depends on float arithmetic.
-/

/-- Outcome of a Go computation: a value, a returned error, or a runtime
panic. -/
inductive GoResult (ε : Type) (α : Type) where
  | ok (a : α)
  | error (e : ε)
  | panic
deriving DecidableEq

namespace GoResult

def toOption {ε α : Type} : GoResult ε α → Option α
  | .ok a => some a
  | _ => none

end GoResult

/-! ### Small string utilities mirroring the Go standard library -/

/-- `strings.Repeat s n`: `n` copies of `s` concatenated. -/
def repeatStr (s : String) : Nat → String
  | 0 => ""
  | n + 1 => s ++ repeatStr s n

/-- `strings.TrimSuffix s suf`: drop `suf` from the end when present. -/
def trimSuffix (s suf : String) : String :=
  if suf.data.isSuffixOf s.data then ⟨s.data.take (s.data.length - suf.data.length)⟩
  else s

/-- `strings.Join xs sep` (also the incremental needComma-style loops of the
source, which produce the same string). -/
def goJoin (sep : String) : List String → String
  | [] => ""
  | [x] => x
  | x :: xs => x ++ sep ++ goJoin sep xs

/-- `strings.ReplaceAll` over a character list: left-to-right,
non-overlapping, for a non-empty pattern (every pattern used in the source
is non-empty).  The fuel argument only drives structural recursion; each
step consumes at least one character, so `s.length` fuel is exact. -/
def listReplaceAllAux (old new : List Char) : Nat → List Char → List Char
  | _, [] => []
  | 0, s => s
  | fuel + 1, c :: rest =>
    if old.isPrefixOf (c :: rest) ∧ old ≠ [] then
      new ++ listReplaceAllAux old new fuel (List.drop (old.length - 1) rest)
    else c :: listReplaceAllAux old new fuel rest

/-- `strings.ReplaceAll s old new` (non-empty `old`). -/
def strReplaceAll (s old new : String) : String :=
  ⟨listReplaceAllAux old.data new.data s.data.length s.data⟩

/-- `strings.Split` / `String.splitOn` for a one-character separator (the
only separators the source uses are `","`, `"("` and `" "`). -/
def splitOnCharAux (sep : Char) : List Char → List Char → List (List Char)
  | [], acc => [acc.reverse]
  | c :: rest, acc =>
    if c = sep then acc.reverse :: splitOnCharAux sep rest []
    else splitOnCharAux sep rest (c :: acc)

def splitOnChar (sep : Char) (s : String) : List String :=
  (splitOnCharAux sep s.data []).map String.mk

/-- ASCII upper-casing (`strings.ToUpper` on the identifiers involved). -/
def charUp (c : Char) : Char :=
  if 'a' ≤ c ∧ c ≤ 'z' then Char.ofNat (c.toNat - 32) else c

def strToUpper (s : String) : String := ⟨s.data.map charUp⟩

/-- ASCII lower-casing (`strings.ToLower` on the column types involved). -/
def charLow (c : Char) : Char :=
  if 'A' ≤ c ∧ c ≤ 'Z' then Char.ofNat (c.toNat + 32) else c

def strToLower (s : String) : String := ⟨s.data.map charLow⟩

/-- Number of occurrences of `?` in a statement text (Go
`strings.Count(s, "?")` for the one-character pattern). -/
def countQ (s : String) : Nat := s.data.count '?'

/-- Number of occurrences of `,` (Go `strings.Count(s, ",")`). -/
def countC (s : String) : Nat := s.data.count ','

/-- A single-quote character as a string (used by the SQL comment escaping). -/
def squote : String := ⟨['\'']⟩

namespace pbconv

/-- `protoreflect.Kind` values relevant to the repository.  The first eleven
are the keys of the MySQL type-mapping table; the remaining ones are valid
protobuf kinds that the table does not mention. -/
inductive GoKind where
  | int32 | uint32 | int64 | uint64 | float | double | bool | string | bytes
  | enum | message
  | sint32 | sint64 | fixed32 | fixed64 | sfixed32 | sfixed64 | group
deriving DecidableEq

/-- The full name of `google.protobuf.Timestamp` (`timestampFullName` in the
source). -/
def timestampFullName : String := "google.protobuf.Timestamp"

/-- The slice of a protobuf field descriptor that the repository observes:
name, kind, list/map flags, and the (full and short) name of the message type
for message-typed fields. -/
structure FieldDescr where
  name : String
  kind : GoKind
  isList : Bool := false
  isMap : Bool := false
  /-- `fieldDesc.Message().FullName()` when `Message()` is non-nil. -/
  msgTypeFullName : Option String := none
  /-- `fieldDesc.Message().Name()` when `Message()` is non-nil. -/
  msgTypeName : Option String := none
deriving DecidableEq

/-- A civil UTC datetime, the observable content of a
`google.protobuf.Timestamp` through `AsTime` in this codebase. -/
structure DateTime where
  year : Nat
  month : Nat
  day : Nat
  hour : Nat
  minute : Nat
  second : Nat
  nanos : Nat
deriving DecidableEq

/-- The zero `time.Time` (January 1, year 1, 00:00:00 UTC). -/
def DateTime.isZero (d : DateTime) : Bool :=
  d = ⟨1, 1, 1, 0, 0, 0, 0⟩

/-- Runtime value of one protobuf field.  Floats are carried as the canonical
decimal string `strconv.FormatFloat(v, 'f', -1, bits)` produces, sub-messages
as their serialized wire bytes, and list/map values only as a presence flag
(their contents are never observably serialized: see
`SerializeFieldAsString`). -/
inductive FieldVal where
  | vInt (i : Int)
  | vUint (n : Nat)
  | vFloat (canon : String)
  | vBool (b : Bool)
  | vStr (s : String)
  | vBytes (bs : List Nat)
  | vEnum (n : Int)
  | vMsg (present : Bool) (payload : List Nat)
  | vTimestamp (present : Bool) (dt : DateTime)
  | vList (present : Bool)
  | vMap (present : Bool)
deriving DecidableEq

/-! #### Go `strconv` parsers used by `ParseFromString` -/

/-- Digit run to a number; `none` when empty or non-digit. -/
def parseDigits : List Char → Option Nat
  | [] => none
  | cs =>
    if cs.all (fun c => '0' ≤ c ∧ c ≤ '9') then
      some (cs.foldl (fun acc c => acc * 10 + (c.toNat - '0'.toNat)) 0)
    else none

/-- `strconv.ParseInt(s, 10, bits)`: optional sign, decimal digits, range
checked against the two's-complement `bits`-bit range. -/
def parseIntGo (bits : Nat) (s : String) : Option Int :=
  let signed : Int × List Char :=
    match s.data with
    | '+' :: r => (1, r)
    | '-' :: r => (-1, r)
    | r => (1, r)
  match parseDigits signed.2 with
  | none => none
  | some n =>
    let v : Int := signed.1 * n
    if -(2 ^ (bits - 1)) ≤ v ∧ v ≤ 2 ^ (bits - 1) - 1 then some v else none

/-- `strconv.ParseUint(s, 10, bits)`: no sign permitted. -/
def parseUintGo (bits : Nat) (s : String) : Option Nat :=
  match parseDigits s.data with
  | none => none
  | some n => if n ≤ 2 ^ bits - 1 then some n else none

/-- `strconv.ParseBool`. -/
def parseBoolGo (s : String) : Option Bool :=
  match s with
  | "1" | "t" | "T" | "TRUE" | "true" | "True" => some true
  | "0" | "f" | "F" | "FALSE" | "false" | "False" => some false
  | _ => none

/-- `strconv.Atoi` (64-bit platform: `ParseInt(s, 10, 64)` into `int`). -/
def atoiGo (s : String) : Option Int := parseIntGo 64 s

/-- Go conversion `int32(v)` on an `int64` value: wrap modulo `2^32`. -/
def toInt32Wrap (i : Int) : Int :=
  let m := i % (2 ^ 32)
  if m ≥ 2 ^ 31 then m - 2 ^ 32 else m

/-! #### Standard base64 (`encoding/base64` StdEncoding) -/

/-- The standard base64 alphabet. -/
def b64Alphabet : List Char :=
  "ABCDEFGHIJKLMNOPQRSTUVWXYZabcdefghijklmnopqrstuvwxyz0123456789+/".data

/-- Value of a base64 data character, `none` for non-alphabet characters. -/
def b64Val (c : Char) : Option Nat :=
  let i := b64Alphabet.indexOf c
  if i < 64 then some i else none

def b64Char (n : Nat) : Char := b64Alphabet.getD n 'A'

/-- `base64.StdEncoding.EncodeToString` over a byte list. -/
def b64EncodeList : List Nat → List Char
  | [] => []
  | [a] =>
    [b64Char (a / 4), b64Char (a % 4 * 16), '=', '=']
  | [a, b] =>
    [b64Char (a / 4), b64Char (a % 4 * 16 + b / 16), b64Char (b % 16 * 4), '=']
  | a :: b :: c :: rest =>
    b64Char (a / 4) :: b64Char (a % 4 * 16 + b / 16) ::
      b64Char (b % 16 * 4 + c / 64) :: b64Char (c % 64) :: b64EncodeList rest

def b64Encode (bs : List Nat) : String := ⟨b64EncodeList bs⟩

/-- `base64.StdEncoding.DecodeString` on the character list (after the
decoder has skipped `\r` and `\n`): strict alphabet, strict padding. -/
def b64DecodeList : List Char → Option (List Nat)
  | [] => some []
  | [a, b, '=', '='] => do
    let va ← b64Val a
    let vb ← b64Val b
    if vb % 16 = 0 then some [va * 4 + vb / 16] else none
  | [a, b, c, '='] => do
    let va ← b64Val a
    let vb ← b64Val b
    let vc ← b64Val c
    if vc % 4 = 0 then some [va * 4 + vb / 16, vb % 16 * 16 + vc / 4] else none
  | a :: b :: c :: d :: rest => do
    let va ← b64Val a
    let vb ← b64Val b
    let vc ← b64Val c
    let vd ← b64Val d
    let tail ← b64DecodeList rest
    some ((va * 4 + vb / 16) :: (vb % 16 * 16 + vc / 4) :: (vc % 4 * 64 + vd) :: tail)
  | _ => none

def b64Decode (s : String) : Option (List Nat) :=
  b64DecodeList (s.data.filter (fun c => c ≠ '\r' ∧ c ≠ '\n'))

/-! #### Timestamp formatting and parsing -/

/-- Zero-pad a number to two digits (the `01`, `02`, `15`, `04`, `05`
components of the Go layout). -/
def pad2 (n : Nat) : String :=
  if n < 10 then "0" ++ toString n else toString n

/-- Zero-pad a year to four digits (`2006` layout component). -/
def pad4 (n : Nat) : String :=
  let s := toString n
  ⟨List.replicate (4 - s.length) '0'⟩ ++ s

/-- `t.Format("2006-01-02 15:04:05")`. -/
def formatDateTime (d : DateTime) : String :=
  pad4 d.year ++ "-" ++ pad2 d.month ++ "-" ++ pad2 d.day ++ " " ++
    pad2 d.hour ++ ":" ++ pad2 d.minute ++ ":" ++ pad2 d.second

def daysInMonth (year month : Nat) : Nat :=
  if month = 2 then
    if year % 4 = 0 ∧ (year % 100 ≠ 0 ∨ year % 400 = 0) then 29 else 28
  else if month = 4 ∨ month = 6 ∨ month = 9 ∨ month = 11 then 30
  else 31

def digit2 (a b : Char) : Option Nat :=
  parseDigits [a, b]

def digit4 (a b c d : Char) : Option Nat :=
  parseDigits [a, b, c, d]

/-- Validate the civil ranges the Go time parser enforces. -/
def mkDateTime (y mo d h mi s nanos : Nat) : Option DateTime :=
  if 1 ≤ mo ∧ mo ≤ 12 ∧ 1 ≤ d ∧ d ≤ daysInMonth y mo ∧ h ≤ 23 ∧ mi ≤ 59 ∧
      s ≤ 59 ∧ nanos < 1000000000 then
    some ⟨y, mo, d, h, mi, s, nanos⟩
  else none

/-- Fractional digits after the seconds field to nanoseconds. -/
def fracToNanos (cs : List Char) : Option Nat :=
  if cs = [] ∨ 9 < cs.length then none
  else
    match parseDigits cs with
    | none => none
    | some n => some (n * 10 ^ (9 - cs.length))

/-- `time.Parse` against the three layouts tried in order by
`ParseFromString`: `2006-01-02 15:04:05.999`, `2006-01-02 15:04:05` (a
fractional second after the seconds field is accepted by the Go parser even
when the layout omits it), and `2006-01-02`. -/
def parseDateTimeGo (s : String) : Option DateTime :=
  match s.data with
  | [y1, y2, y3, y4, '-', m1, m2, '-', d1, d2] => do
    let y ← digit4 y1 y2 y3 y4
    let mo ← digit2 m1 m2
    let d ← digit2 d1 d2
    mkDateTime y mo d 0 0 0 0
  | y1 :: y2 :: y3 :: y4 :: '-' :: m1 :: m2 :: '-' :: d1 :: d2 :: ' ' ::
      h1 :: h2 :: ':' :: mi1 :: mi2 :: ':' :: s1 :: s2 :: rest => do
    let y ← digit4 y1 y2 y3 y4
    let mo ← digit2 m1 m2
    let d ← digit2 d1 d2
    let h ← digit2 h1 h2
    let mi ← digit2 mi1 mi2
    let sec ← digit2 s1 s2
    match rest with
    | [] => mkDateTime y mo d h mi sec 0
    | '.' :: frac => do
      let nanos ← fracToNanos frac
      mkDateTime y mo d h mi sec nanos
    | _ => none
  | _ => none

/-! #### Protobuf wire encoding of a Timestamp (`proto.Marshal(ts)`) -/

/-- Little-endian base-128 varint of a natural number. -/
def varintNat (n : Nat) : List Nat :=
  if n < 128 then [n]
  else (n % 128 + 128) :: varintNat (n / 128)
decreasing_by
  have : 128 ≤ n := le_of_not_lt (by assumption)
  omega

/-- Varint of an `int64` (negative values encode as `2^64 + v`). -/
def varintInt64 (i : Int) : List Nat :=
  if i ≥ 0 then varintNat i.toNat else varintNat (2 ^ 64 + i).toNat

/-- Days since 1970-01-01 for a civil date (standard civil-from-days
inversion). -/
def daysFromCivil (y mo d : Nat) : Int :=
  let y' : Int := if mo ≤ 2 then (y : Int) - 1 else y
  let era : Int := (if y' ≥ 0 then y' else y' - 399) / 400
  let yoe : Int := y' - era * 400
  let mp : Int := ((mo : Int) + 9) % 12
  let doy : Int := (153 * mp + 2) / 5 + (d : Int) - 1
  let doe : Int := yoe * 365 + yoe / 4 - yoe / 100 + doy
  era * 146097 + doe - 719468

/-- Unix seconds of a civil UTC datetime. -/
def epochSeconds (dt : DateTime) : Int :=
  daysFromCivil dt.year dt.month dt.day * 86400 + dt.hour * 3600 +
    dt.minute * 60 + dt.second

/-- `proto.Marshal` of `timestamppb.New(t)`: field 1 (seconds) and field 2
(nanos) as varints, zero fields omitted. -/
def protoMarshalTimestamp (dt : DateTime) : List Nat :=
  let secs := epochSeconds dt
  (if secs = 0 then [] else 8 :: varintInt64 secs) ++
    (if dt.nanos = 0 then [] else 16 :: varintNat dt.nanos)

/-! #### The codec itself -/

/-- Structured content of the `fmt.Errorf` values produced by the codec: the
tag of the format string, the field name when the format carries `%s` for it,
and the offending raw value when the format carries `(value: %s)`. -/
structure ParseErr where
  tag : String
  fieldName : String
  rawValue : Option String
deriving DecidableEq

/-- Serialization errors (`fmt.Errorf` values of `SerializeFieldAsString`). -/
structure SerErr where
  tag : String
  fieldName : String
deriving DecidableEq

/-- `reflection.Set(fieldDesc, protoreflect.ValueOfBytes(data))`:
`protoreflect.Message.Set` accepts a bytes-typed value only on a singular
bytes field and panics with a type mismatch on every other field kind. -/
def protoreflectSetBytes (fd : FieldDescr) (data : List Nat) :
    GoResult ParseErr FieldVal :=
  if fd.kind = GoKind.bytes ∧ ¬fd.isList ∧ ¬fd.isMap then .ok (.vBytes data)
  else .panic

/-- Whether the field is the `google.protobuf.Timestamp` special case of the
serializer (`Kind() == MessageKind && Message() != nil && FullName() ==
timestampFullName`). -/
def isTimestampSer (fd : FieldDescr) : Bool :=
  fd.kind = GoKind.message ∧ fd.msgTypeFullName = some timestampFullName

/-- The corresponding check in `ParseFromString` (`Message() != nil &&
FullName() == timestampFullName`, with no kind test). -/
def isTimestampParse (fd : FieldDescr) : Bool :=
  fd.msgTypeFullName = some timestampFullName

/-- `pbconv.SerializeFieldAsString`.  The map and list branches marshal a
`MapWrapper`/`ListWrapper` whose `ProtoReflect` returns
`protoreflect.Message(nil)`; `proto.Marshal` then invokes methods on that nil
interface and panics, so a present map or list never serializes.  Value
constructors that cannot occur on a well-typed message reflect as panics of
the reflection getters. -/
def SerializeFieldAsString (fd : FieldDescr) (v : FieldVal) :
    GoResult SerErr String :=
  if isTimestampSer fd then
    match v with
    | .vTimestamp present dt =>
      if ¬present then .ok ""
      else if dt.isZero then .ok ""
      else .ok (formatDateTime dt)
    | _ => .error ⟨"is not a Timestamp", fd.name⟩
  else if fd.isMap then
    match v with
    | .vMap present => if ¬present then .ok "" else .panic
    | _ => .panic
  else if fd.isList then
    match v with
    | .vList present => if ¬present then .ok "" else .panic
    | _ => .panic
  else
    match fd.kind, v with
    | GoKind.int32, .vInt i => .ok (toString i)
    | GoKind.uint32, .vUint n => .ok (toString n)
    | GoKind.float, .vFloat canon => .ok canon
    | GoKind.string, .vStr s => .ok s
    | GoKind.int64, .vInt i => .ok (toString i)
    | GoKind.uint64, .vUint n => .ok (toString n)
    | GoKind.double, .vFloat canon => .ok canon
    | GoKind.bool, .vBool b => .ok (if b then "true" else "false")
    | GoKind.enum, .vEnum n => .ok (toString n)
    | GoKind.bytes, .vBytes bs => .ok (b64Encode bs)
    | GoKind.message, .vMsg present payload =>
      if present then .ok (b64Encode payload) else .ok ""
    | GoKind.int32, _ | GoKind.uint32, _ | GoKind.float, _ | GoKind.string, _
    | GoKind.int64, _ | GoKind.uint64, _ | GoKind.double, _ | GoKind.bool, _
    | GoKind.enum, _ | GoKind.bytes, _ | GoKind.message, _ => .panic
    | _, _ => .error ⟨"invalid field kind", fd.name⟩

/-- One column of `pbconv.ParseFromString`: the body of the field loop for
field `fd` with stored text `fieldValue`, acting on the current value `cur`
of the field.  `pf32`/`pf64` stand for `strconv.ParseFloat(s, 32/64)`
(returning the canonical representation of the parsed value) and
`unmarshalOK` for whether `proto.Unmarshal` accepts a byte string for the
sub-message type. -/
def parseColumn (pf32 pf64 : String → Option String)
    (unmarshalOK : List Nat → Bool) (fd : FieldDescr) (fieldValue : String)
    (cur : FieldVal) : GoResult ParseErr FieldVal :=
  if isTimestampParse fd then
    if fieldValue = "" then .ok cur
    else
      match parseDateTimeGo fieldValue with
      | none => .error ⟨"parse timestamp field", fd.name, some fieldValue⟩
      | some t => protoreflectSetBytes fd (protoMarshalTimestamp t)
  else if fd.isMap then
    if fieldValue = "" then .ok cur
    else
      match b64Decode fieldValue with
      | none => .error ⟨"decode map field", fd.name, some fieldValue⟩
      | some _ => .panic
  else if fd.isList then
    if fieldValue = "" then .ok cur
    else
      match b64Decode fieldValue with
      | none => .error ⟨"decode list field", fd.name, some fieldValue⟩
      | some _ => .panic
  else if fieldValue = "" then
    match fd.kind with
    | GoKind.int32 | GoKind.int64 => .ok (.vInt 0)
    | GoKind.uint32 | GoKind.uint64 => .ok (.vUint 0)
    | GoKind.float | GoKind.double => .ok (.vFloat "0")
    | GoKind.bool => .ok (.vBool false)
    | GoKind.string => .ok (.vStr "")
    | _ => .ok cur
  else
    match fd.kind with
    | GoKind.int32 =>
      match parseIntGo 32 fieldValue with
      | none => .error ⟨"parse int32 field", fd.name, some fieldValue⟩
      | some i => .ok (.vInt i)
    | GoKind.int64 =>
      match parseIntGo 64 fieldValue with
      | none => .error ⟨"parse int64 field", fd.name, some fieldValue⟩
      | some i => .ok (.vInt i)
    | GoKind.uint32 =>
      match parseUintGo 32 fieldValue with
      | none => .error ⟨"parse uint32 field", fd.name, some fieldValue⟩
      | some n => .ok (.vUint n)
    | GoKind.uint64 =>
      match parseUintGo 64 fieldValue with
      | none => .error ⟨"parse uint64 field", fd.name, some fieldValue⟩
      | some n => .ok (.vUint n)
    | GoKind.float =>
      match pf32 fieldValue with
      | none => .error ⟨"parse float field", fd.name, some fieldValue⟩
      | some canon => .ok (.vFloat canon)
    | GoKind.double =>
      match pf64 fieldValue with
      | none => .error ⟨"parse double field", fd.name, some fieldValue⟩
      | some canon => .ok (.vFloat canon)
    | GoKind.string => .ok (.vStr fieldValue)
    | GoKind.bool =>
      match parseBoolGo fieldValue with
      | none => .error ⟨"parse bool field", fd.name, some fieldValue⟩
      | some b => .ok (.vBool b)
    | GoKind.enum =>
      match atoiGo fieldValue with
      | none => .error ⟨"parse enum field", fd.name, some fieldValue⟩
      | some i => .ok (.vEnum (toInt32Wrap i))
    | GoKind.bytes =>
      match b64Decode fieldValue with
      | none => .error ⟨"decode bytes field", fd.name, none⟩
      | some data => .ok (.vBytes data)
    | GoKind.message =>
      match b64Decode fieldValue with
      | none => .error ⟨"decode sub-message field", fd.name, none⟩
      | some data =>
        if unmarshalOK data then .ok (.vMsg true data)
        else .error ⟨"unmarshal sub-message field", fd.name, some fieldValue⟩
    | _ => .error ⟨"invalid field kind", fd.name, none⟩

/-- A message: declared fields paired with current values, in declared
order. -/
abbrev MsgState := List (FieldDescr × FieldVal)

/-- `pbconv.ParseFromString(message, row)`: column-by-column over declared
field order.  Fields beyond the row length are skipped (`continue`), extra
row columns beyond the field count are ignored. -/
def ParseFromString (pf32 pf64 : String → Option String)
    (unmarshalOK : List Nat → Bool) :
    MsgState → List String → GoResult ParseErr MsgState
  | [], _ => .ok []
  | fs, [] => .ok fs
  | (fd, cur) :: fs, v :: vs =>
    match parseColumn pf32 pf64 unmarshalOK fd v cur with
    | .ok newVal =>
      match ParseFromString pf32 pf64 unmarshalOK fs vs with
      | .ok rest => .ok ((fd, newVal) :: rest)
      | .error e => .error e
      | .panic => .panic
    | .error e => .error e
    | .panic => .panic

end pbconv

namespace proto2mysql

open pbconv

/-- `BatchInsertMaxSize`. -/
def BatchInsertMaxSize : Nat := 1000

/-- The alternatives of `mysqlKeywordPattern` (the regex is anchored on both
sides, so matching it is membership in this list). -/
def mysqlKeywords : List String :=
  ["SELECT", "INSERT", "UPDATE", "DELETE", "FROM", "WHERE", "AND", "OR",
   "JOIN", "ON", "IN", "NOT", "NULL", "PRIMARY", "KEY", "INDEX", "UNIQUE",
   "AUTO_INCREMENT", "INT", "VARCHAR", "TEXT", "BLOB", "DATETIME",
   "TIMESTAMP", "FLOAT", "DOUBLE", "BOOL", "TINYINT", "BIGINT"]

/-- `escapeMySQLName`: backtick-quote names whose upper-casing is a MySQL
keyword. -/
def escapeMySQLName (name : String) : String :=
  if mysqlKeywords.contains (strToUpper name) then "`" ++ name ++ "`" else name

/-- `escapeMySQLComment`: escape single quotes and flatten newlines. -/
def escapeMySQLComment (comment : String) : String :=
  strReplaceAll (strReplaceAll comment squote ("\\" ++ squote)) "\n" " "

/-- The `MySQLFieldTypes` map (`protoreflect.Kind → column type`). -/
def MySQLFieldTypes : GoKind → Option String
  | .int32 => some "int NOT NULL DEFAULT 0"
  | .uint32 => some "int unsigned NOT NULL DEFAULT 0"
  | .float => some "float NOT NULL DEFAULT 0"
  | .string => some "MEDIUMTEXT"
  | .int64 => some "bigint NOT NULL DEFAULT 0"
  | .uint64 => some "bigint unsigned NOT NULL DEFAULT 0"
  | .double => some "double NOT NULL DEFAULT 0"
  | .bool => some "tinyint(1) NOT NULL DEFAULT 0"
  | .enum => some "int NOT NULL DEFAULT 0"
  | .bytes => some "MEDIUMBLOB"
  | .message => some "MEDIUMBLOB"
  | _ => none

/-- The `MessageTable` record: registration inputs (descriptor and options)
plus the SQL fragments `Init` precomputes and the live-column cache. -/
structure MessageTable where
  tableName : String
  fields : List FieldDescr
  primaryKey : List String := []
  indexes : List String := []
  uniqueKeys : String := ""
  autoIncreaseKey : String := ""
  nullableFields : List String := []
  selectAllSQLWithSemicolon : String := ""
  selectAllSQLWithoutSemicolon : String := ""
  selectFieldsSQL : String := ""
  fieldsListSQL : String := ""
  replaceSQL : String := ""
  insertSQL : String := ""
  insertSQLTemplate : String := ""
  deleteByPKTemplate : String := ""
  primaryKeyField : Option FieldDescr := none
  cachedColumns : Option (List (String × String)) := none
deriving DecidableEq

/-- `MessageTable.getMySQLFieldType`: Timestamp special case, collection
blob, mapping table with silent `TEXT` default, nullable and auto-increment
adjustments. -/
def getMySQLFieldType (m : MessageTable) (fd : FieldDescr) : String :=
  if fd.msgTypeFullName = some timestampFullName then
    if m.nullableFields.contains fd.name then "DATETIME" else "DATETIME NOT NULL"
  else if fd.isMap ∨ fd.isList then "MEDIUMBLOB"
  else
    let baseType :=
      match MySQLFieldTypes fd.kind with
      | some t => t
      | none => "TEXT"
    let baseType :=
      if m.nullableFields.contains fd.name then
        strReplaceAll baseType " NOT NULL" ""
      else baseType
    if m.autoIncreaseKey = fd.name then
      strReplaceAll baseType " DEFAULT 0" "" ++ " AUTO_INCREMENT"
    else baseType

/-- Index clause names `idx_<table>_<i>` numbered by position. -/
def indexClauses (tableName : String) : Nat → List String → List String
  | _, [] => []
  | idx, indexCols :: rest =>
    ("  INDEX idx_" ++ tableName ++ "_" ++ toString idx ++ " (" ++
        goJoin "," ((splitOnChar ',' indexCols).map escapeMySQLName) ++ ")") ::
      indexClauses tableName (idx + 1) rest

/-- `MessageTable.GetCreateTableSQL`.  (Note the source appends
` AUTO_INCREMENT` both inside `getMySQLFieldType` and again in this
function.) -/
def GetCreateTableSQL (m : MessageTable) : String :=
  let fields :=
    m.fields.map (fun fd =>
      let fieldType := getMySQLFieldType m fd
      let fieldType :=
        if m.autoIncreaseKey = fd.name then fieldType ++ " AUTO_INCREMENT"
        else fieldType
      "  " ++ escapeMySQLName fd.name ++ " " ++ fieldType)
  let fields :=
    if m.primaryKey.length > 0 then
      fields ++ ["  PRIMARY KEY (" ++ goJoin "," (m.primaryKey.map escapeMySQLName) ++ ")"]
    else fields
  let indexes := indexClauses m.tableName 0 m.indexes
  let indexes :=
    if m.uniqueKeys ≠ "" then
      indexes ++ ["  UNIQUE KEY uk_" ++ m.tableName ++ " (" ++
        goJoin "," ((splitOnChar ',' m.uniqueKeys).map escapeMySQLName) ++ ")"]
    else indexes
  let stmt := "CREATE TABLE IF NOT EXISTS " ++ escapeMySQLName m.tableName ++
    " (\n" ++ goJoin ",\n" fields
  let stmt := if indexes.length > 0 then stmt ++ ",\n" ++ goJoin ",\n" indexes else stmt
  stmt ++ "\n) ENGINE=InnoDB DEFAULT CHARSET=utf8mb4 COLLATE=utf8mb4_unicode_ci COMMENT=" ++
    squote ++ escapeMySQLComment m.tableName ++ squote ++ ";"

/-- `MessageTable.Init`: precompute the SQL fragments from the descriptor.
The incremental needComma loop of the source builds exactly the comma-joined
field list. -/
def Init (m : MessageTable) : MessageTable :=
  let fieldsListSQL := goJoin ", " (m.fields.map (fun fd => escapeMySQLName fd.name))
  let selectFieldsSQL := "SELECT " ++ fieldsListSQL ++ " FROM " ++ escapeMySQLName m.tableName
  let fieldCount := countC fieldsListSQL + 1
  let placeholders := trimSuffix (repeatStr "?, " fieldCount) ", "
  let primaryKeyField :=
    match m.primaryKey with
    | [] => none
    | pk :: _ => m.fields.find? (fun fd => fd.name = pk)
  { m with
    fieldsListSQL := fieldsListSQL
    selectFieldsSQL := selectFieldsSQL
    selectAllSQLWithSemicolon := selectFieldsSQL ++ ";"
    selectAllSQLWithoutSemicolon := selectFieldsSQL ++ " "
    insertSQLTemplate := "INSERT INTO " ++ escapeMySQLName m.tableName ++
      " (" ++ fieldsListSQL ++ ") VALUES (" ++ placeholders ++ ")"
    replaceSQL := "REPLACE INTO " ++ escapeMySQLName m.tableName ++
      " (" ++ fieldsListSQL ++ ") VALUES ("
    insertSQL := "INSERT INTO " ++ escapeMySQLName m.tableName ++
      " (" ++ fieldsListSQL ++ ") VALUES "
    primaryKeyField := primaryKeyField
    deleteByPKTemplate :=
      match primaryKeyField with
      | some fd => "DELETE FROM " ++ escapeMySQLName m.tableName ++
          " WHERE " ++ escapeMySQLName fd.name ++ " = ?"
      | none => m.deleteByPKTemplate }

/-- `RegisterTable` compiles a `MessageTable` from a message and options and
stores it under the full type name; it has no error return. -/
def RegisterTable (tables : List (String × MessageTable))
    (tableName : String) (fields : List FieldDescr)
    (opts : List (MessageTable → MessageTable)) :
    List (String × MessageTable) :=
  let table : MessageTable := { tableName := tableName, fields := fields }
  let table := opts.foldl (fun t o => o t) table
  (tableName, Init table) :: tables.filter (fun kv => kv.1 ≠ tableName)

/-! ### Statement builders -/

/-- `SqlWithArgs`: placeholder-bearing statement text plus positional
arguments (always strings here, since every argument is the output of
`SerializeFieldAsString`, except caller-supplied where-arguments which are
also carried as strings). -/
structure SqlWithArgs where
  Sql : String
  Args : List String
deriving DecidableEq

/-- Error values of the proto2mysql layer. -/
inductive DbErr where
  | noMessages
  | batchSizeExceeded
  | differentDescriptors
  | tableNotFound (name : String)
  | fieldNotFound (field table : String)
  | primaryKeyNotFound
  | noFieldsToUpdate
  | noRepeatedField
  | multipleRepeated
  | serialize (e : SerErr)
  | parse (e : ParseErr)
  | execFailed (sql : String)
deriving DecidableEq

/-- `protoreflect.Message.Has` under proto3 implicit presence: message-like
fields report their presence bit, scalars report a non-zero value. -/
def reflectHas : FieldVal → Bool
  | .vInt i => i ≠ 0
  | .vUint n => n ≠ 0
  | .vFloat canon => canon ≠ "0"
  | .vBool b => b
  | .vStr s => s ≠ ""
  | .vBytes bs => bs ≠ []
  | .vEnum n => n ≠ 0
  | .vMsg present _ => present
  | .vTimestamp present _ => present
  | .vList present => present
  | .vMap present => present

/-- The serialization loop shared by the INSERT/REPLACE builders: serialize
every declared field of the message in order. -/
def serializeAll : MsgState → GoResult DbErr (List String)
  | [] => .ok []
  | (fd, v) :: rest =>
    match SerializeFieldAsString fd v with
    | .ok s =>
      match serializeAll rest with
      | .ok tail => .ok (s :: tail)
      | .error e => .error e
      | .panic => .panic
    | .error e => .error (.serialize e)
    | .panic => .panic

/-- `MessageTable.GetInsertSQLWithArgs`: the cached template with one
argument per declared field. -/
def GetInsertSQLWithArgs (m : MessageTable) (msg : MsgState) :
    GoResult DbErr SqlWithArgs :=
  match serializeAll msg with
  | .ok args => .ok ⟨m.insertSQLTemplate, args⟩
  | .error e => .error e
  | .panic => .panic

/-- Go slice expression `s[:len(s)-2]` (panics when `len(s) < 2`). -/
def sliceDropLast2 (s : String) : GoResult DbErr String :=
  if s.data.length < 2 then .panic
  else .ok ⟨s.data.take (s.data.length - 2)⟩

/-- `MessageTable.GetBatchInsertSQLWithArgs`: size check, same-descriptor
check, then one placeholder group per message. -/
def GetBatchInsertSQLWithArgs (m : MessageTable) (msgs : List MsgState) :
    GoResult DbErr SqlWithArgs :=
  match msgs with
  | [] => .error .noMessages
  | first :: rest =>
    if msgs.length > BatchInsertMaxSize then .error .batchSizeExceeded
    else if rest.any (fun msg => msg.map Prod.fst ≠ first.map Prod.fst) then
      .error .differentDescriptors
    else
      let fieldCount := m.fields.length
      match serializeAll (msgs.flatten) with
      | .ok allArgs =>
        match sliceDropLast2 (repeatStr "?, " fieldCount) with
        | .ok group =>
          .ok ⟨"INSERT INTO " ++ escapeMySQLName m.tableName ++ " (" ++
              m.fieldsListSQL ++ ") VALUES (" ++
              goJoin "), (" (List.replicate msgs.length group) ++ ")",
            allArgs⟩
        | .error e => .error e
        | .panic => .panic
      | .error e => .error e
      | .panic => .panic

/-- The update-clause loop of `GetInsertOnDupUpdateSQLWithArgs`: clauses and
arguments for the fields `Has` reports present. -/
def dupUpdateClauses : MsgState → GoResult DbErr (List String × List String)
  | [] => .ok ([], [])
  | (fd, v) :: rest =>
    if reflectHas v then
      match SerializeFieldAsString fd v with
      | .ok s =>
        match dupUpdateClauses rest with
        | .ok (cs, args) => .ok ((escapeMySQLName fd.name ++ " = ?") :: cs, s :: args)
        | .error e => .error e
        | .panic => .panic
      | .error e => .error (.serialize e)
      | .panic => .panic
    else dupUpdateClauses rest

/-- `MessageTable.GetInsertOnDupUpdateSQLWithArgs`. -/
def GetInsertOnDupUpdateSQLWithArgs (m : MessageTable) (msg : MsgState) :
    GoResult DbErr SqlWithArgs :=
  match GetInsertSQLWithArgs m msg with
  | .ok insertSQL =>
    match dupUpdateClauses msg with
    | .ok (updateClauses, updateArgs) =>
      if updateClauses = [] then .ok insertSQL
      else
        .ok ⟨insertSQL.Sql ++ " ON DUPLICATE KEY UPDATE " ++
            goJoin ", " updateClauses,
          insertSQL.Args ++ updateArgs⟩
    | .error e => .error e
    | .panic => .panic
  | .error e => .error e
  | .panic => .panic

/-- `MessageTable.GetReplaceSQLWithArgs`. -/
def GetReplaceSQLWithArgs (m : MessageTable) (msg : MsgState) :
    GoResult DbErr SqlWithArgs :=
  match serializeAll msg with
  | .ok args =>
    let placeholders := trimSuffix (repeatStr "?, " args.length) ", "
    .ok ⟨m.replaceSQL ++ placeholders ++ ")", args⟩
  | .error e => .error e
  | .panic => .panic

/-- The needComma loop of `GetUpdateSetWithArgs` (note the leading space the
source puts before every assignment). -/
def updateSetLoop : MsgState → String → Bool → List String →
    GoResult DbErr (String × List String)
  | [], setClause, _, args => .ok (setClause, args)
  | (fd, v) :: rest, setClause, needComma, args =>
    if reflectHas v then
      match SerializeFieldAsString fd v with
      | .ok s =>
        let setClause := if needComma then setClause ++ ", " else setClause
        updateSetLoop rest (setClause ++ " " ++ escapeMySQLName fd.name ++ " = ?")
          true (args ++ [s])
      | .error e => .error (.serialize e)
      | .panic => .panic
    else updateSetLoop rest setClause needComma args

/-- `MessageTable.GetUpdateSetWithArgs`. -/
def GetUpdateSetWithArgs (m : MessageTable) (msg : MsgState) :
    GoResult DbErr (String × List String) :=
  updateSetLoop msg "" false []

/-- The primary-key where-clause loop of `GetUpdateSQLWithArgs`:
`fieldNameToDesc` lookup is a find over the declared fields, and the value
serialized is the message value of the found descriptor (reflection on a
descriptor the message does not carry panics). -/
def pkWhereLoop (m : MessageTable) (msg : MsgState) : List String → String →
    Bool → List String → GoResult DbErr (String × List String)
  | [], whereClause, _, args => .ok (whereClause, args)
  | pk :: rest, whereClause, needComma, args =>
    match m.fields.find? (fun fd => fd.name = pk) with
    | none => .error (.fieldNotFound pk m.tableName)
    | some field =>
      match msg.find? (fun p => p.1 = field) with
      | none => .panic
      | some (fd, v) =>
        match SerializeFieldAsString fd v with
        | .ok s =>
          let whereClause := if needComma then whereClause ++ " AND " else whereClause
          pkWhereLoop m msg rest (whereClause ++ escapeMySQLName pk ++ " = ?")
            true (args ++ [s])
        | .error e => .error (.serialize e)
        | .panic => .panic

/-- `MessageTable.GetUpdateSQLWithArgs`. -/
def GetUpdateSQLWithArgs (m : MessageTable) (msg : MsgState) :
    GoResult DbErr SqlWithArgs :=
  match GetUpdateSetWithArgs m msg with
  | .ok (setClause, setArgs) =>
    if setClause = "" then .error .noFieldsToUpdate
    else
      match pkWhereLoop m msg m.primaryKey "" false [] with
      | .ok (whereClause, whereArgs) =>
        if whereClause = "" then .error .primaryKeyNotFound
        else
          .ok ⟨"UPDATE " ++ escapeMySQLName m.tableName ++ " SET " ++ setClause ++
              " WHERE " ++ whereClause,
            setArgs ++ whereArgs⟩
      | .error e => .error e
      | .panic => .panic
  | .error e => .error e
  | .panic => .panic

/-- `MessageTable.GetUpdateSQLByWhereWithArgs`. -/
def GetUpdateSQLByWhereWithArgs (m : MessageTable) (msg : MsgState)
    (whereClause : String) (whereArgs : List String) :
    GoResult DbErr SqlWithArgs :=
  match GetUpdateSetWithArgs m msg with
  | .ok (setClause, setArgs) =>
    if setClause = "" then .error .noFieldsToUpdate
    else
      .ok ⟨"UPDATE " ++ escapeMySQLName m.tableName ++ " SET " ++ setClause ++
          " WHERE " ++ whereClause,
        setArgs ++ whereArgs⟩
  | .error e => .error e
  | .panic => .panic

/-- `MessageTable.GetDeleteSQLWithArgs`: the cached by-primary-key template
with the serialized key as its only argument. -/
def GetDeleteSQLWithArgs (m : MessageTable) (msg : MsgState) :
    GoResult DbErr SqlWithArgs :=
  match m.primaryKeyField with
  | none => .error .primaryKeyNotFound
  | some pkField =>
    match msg.find? (fun p => p.1 = pkField) with
    | none => .panic
    | some (fd, v) =>
      match SerializeFieldAsString fd v with
      | .ok s => .ok ⟨m.deleteByPKTemplate, [s]⟩
      | .error e => .error (.serialize e)
      | .panic => .panic

/-- `MessageTable.GetDeleteSQLByWhereWithArgs`. -/
def GetDeleteSQLByWhereWithArgs (m : MessageTable) (whereClause : String)
    (whereArgs : List String) : SqlWithArgs :=
  ⟨"DELETE FROM " ++ escapeMySQLName m.tableName ++ " WHERE " ++ whereClause,
    whereArgs⟩

/-- `MessageTable.GetSelectSQLByKVWithArgs`. -/
def GetSelectSQLByKVWithArgs (m : MessageTable) (whereKey whereVal : String) :
    GoResult DbErr SqlWithArgs :=
  match m.fields.find? (fun fd => fd.name = whereKey) with
  | none => .error (.fieldNotFound whereKey m.tableName)
  | some _ =>
    .ok ⟨m.selectFieldsSQL ++ " WHERE " ++ escapeMySQLName whereKey ++ " = ?;",
      [whereVal]⟩

/-- `MessageTable.GetSelectSQLByWhereWithArgs`. -/
def GetSelectSQLByWhereWithArgs (m : MessageTable) (whereClause : String)
    (whereArgs : List String) : SqlWithArgs :=
  ⟨m.selectFieldsSQL ++ " WHERE " ++ whereClause ++ ";", whereArgs⟩

/-! ### Schema synchronizer (`UpdateTableField`) -/

/-- `strings.TrimSpace` restricted to the blanks that occur here. -/
def trimSpaces (s : String) : String :=
  ⟨((s.data.dropWhile (fun c => c = ' ')).reverse.dropWhile (fun c => c = ' ')).reverse⟩

/-- Parsed MySQL column type (`mysqlTypeInfo`). -/
structure mysqlTypeInfo where
  baseType : String := ""
  length : Nat := 0
  decimal : Nat := 0
  unsigned : Bool := false
deriving DecidableEq

/-- `strconv.Atoi` with the error ignored (Go yields 0 alongside an error). -/
def atoiOrZero (s : String) : Nat :=
  match parseDigits s.data with
  | some n => n
  | none => 0

/-- `parseMySQLType`. -/
def parseMySQLType (colType : String) : mysqlTypeInfo :=
  let parts := (splitOnChar ' ' (strToLower colType)).filter (fun p => p ≠ "")
  match parts with
  | [] => {}
  | basePart :: restParts =>
    let info : mysqlTypeInfo :=
      match splitOnChar '(' basePart with
      | [b] => { baseType := b }
      | b :: paramsRaw :: _ =>
        let params := String.mk (paramsRaw.data.filter (fun c => c ≠ '(' ∧ c ≠ ')'))
        match splitOnChar ',' params with
        | [only] => { baseType := b, length := atoiOrZero only }
        | l :: d :: _ =>
          { baseType := b, length := atoiOrZero (trimSpaces l),
            decimal := atoiOrZero (trimSpaces d) }
        | [] => { baseType := b }
      | [] => {}
    { info with unsigned := restParts.contains "unsigned" }

/-- The base-type synonym table inside `isTypeMatch`. -/
def typeFamily (s : String) : String :=
  match s with
  | "bool" => "tinyint"
  | "integer" => "int"
  | "timestamp" => "datetime"
  | _ => s

/-- `isTypeMatch`. -/
def isTypeMatch (currentType targetType : String) : Bool :=
  let current := parseMySQLType currentType
  let target := parseMySQLType targetType
  let currentBase := typeFamily current.baseType
  let targetBase := typeFamily target.baseType
  if currentBase ≠ targetBase then false
  else if currentBase = "varchar" ∨ currentBase = "char" then
    decide (target.length ≥ current.length)
  else if currentBase = "int" ∨ currentBase = "bigint" ∨
      currentBase = "tinyint" ∨ currentBase = "smallint" then
    current.unsigned = target.unsigned
  else if currentBase = "float" ∨ currentBase = "double" then
    decide (target.decimal ≥ current.decimal)
  else true

/-- Go `delete(m, k)` on the column map (association list with unique
keys). -/
def mapDelete (cols : List (String × String)) (k : String) :
    List (String × String) :=
  cols.filter (fun kv => kv.1 ≠ k)

/-- Result of the existing-table branch of `UpdateTableField`: the DDL
statements issued, the returned error, and the table's live-column cache
after the call. -/
structure SyncResult where
  statements : List String
  result : GoResult DbErr Unit
  cachedColumns : Option (List (String × String))
deriving DecidableEq

/-- The field loop of `UpdateTableField`: thread the (aliased) column map
and the collected ALTER clauses. -/
def syncFieldStep (m : MessageTable)
    (st : List (String × String) × List String) (fd : FieldDescr) :
    List (String × String) × List String :=
  let (cols, alters) := st
  let targetType := getMySQLFieldType m fd
  match cols.lookup fd.name with
  | some currentType =>
    (mapDelete cols fd.name,
      if isTypeMatch currentType targetType then alters
      else alters ++ ["MODIFY COLUMN " ++ escapeMySQLName fd.name ++ " " ++ targetType])
  | none =>
    (cols, alters ++ ["ADD COLUMN " ++ escapeMySQLName fd.name ++ " " ++ targetType])

/-- `PbMysqlDB.UpdateTableField`, existing-table branch.  `getTableColumns`
returns the cached map itself when one is present and otherwise stores and
returns the freshly queried map (`live`), so the loop's `delete` calls
mutate the cached map in place; `clearColumnCache` replaces it with nil only
after a successful `Exec` (`execOK`). -/
def UpdateTableField (m : MessageTable) (live : List (String × String))
    (execOK : Bool) : SyncResult :=
  let currentCols :=
    match m.cachedColumns with
    | some cols => cols
    | none => live
  let (colsFinal, alterSQLs) := m.fields.foldl (syncFieldStep m) (currentCols, [])
  if alterSQLs ≠ [] then
    let alterSQL := "ALTER TABLE " ++ escapeMySQLName m.tableName ++ " " ++
      goJoin ", " alterSQLs
    if execOK then ⟨[alterSQL], .ok (), none⟩
    else ⟨[alterSQL], .error (.execFailed alterSQL), some colsFinal⟩
  else ⟨[], .ok (), some colsFinal⟩

/-! ### Batch insert -/

/-- A message handed to the CRUD layer: its registered type name plus its
reflected state. -/
structure PbMessage where
  typeName : String
  state : MsgState
deriving DecidableEq

/-- The chunking of `BatchInsert`'s for-loop: consecutive slices
`messages[i : i+BatchInsertMaxSize]`. -/
def chunksGo {α : Type} : List α → List (List α)
  | [] => []
  | x :: xs =>
    if h : (x :: xs).length ≤ BatchInsertMaxSize then [x :: xs]
    else (x :: xs).take BatchInsertMaxSize ::
      chunksGo ((x :: xs).drop BatchInsertMaxSize)
termination_by l => l.length
decreasing_by
  simp only [List.length_drop, List.length_cons, BatchInsertMaxSize] at *
  omega

/-- Per-chunk body of `BatchInsert`: resolve the table from the chunk's
first message, build the batch statement, execute it.  Returns the executed
statements in order. -/
def execChunks (tables : List (String × MessageTable)) :
    List (List PbMessage) → GoResult DbErr (List SqlWithArgs)
  | [] => .ok []
  | chunk :: rest =>
    match chunk with
    | [] => .panic
    | first :: _ =>
      match tables.lookup first.typeName with
      | none => .error (.tableNotFound first.typeName)
      | some table =>
        match GetBatchInsertSQLWithArgs table (chunk.map PbMessage.state) with
        | .ok sqlWithArgs =>
          match execChunks tables rest with
          | .ok tail => .ok (sqlWithArgs :: tail)
          | .error e => .error e
          | .panic => .panic
        | .error e => .error e
        | .panic => .panic

/-- `PbMysqlDB.BatchInsert` (successful executions): split into chunks of at
most `BatchInsertMaxSize` and issue one statement per chunk sequentially. -/
def BatchInsert (tables : List (String × MessageTable))
    (msgs : List PbMessage) : GoResult DbErr (List SqlWithArgs) :=
  if msgs = [] then .error .noMessages
  else execChunks tables (chunksGo msgs)

/-! ### FindAll-style reads -/

/-- The Go-runtime collaborators the codec depends on: the two
`strconv.ParseFloat` widths and `proto.Unmarshal` acceptance. -/
structure GoEnv where
  pf32 : String → Option String
  pf64 : String → Option String
  unmarshalOK : List Nat → Bool

/-- The database handle as the reads observe it: the registered tables and
the query collaborator mapping an executed statement to its result rows. -/
structure PbMysqlDB where
  Tables : List (String × MessageTable)
  query : SqlWithArgs → List (List String)

/-- A FindAll destination: its descriptor and the current contents of its
container list field. -/
structure DestState where
  fields : List FieldDescr
  containerContents : List MsgState
deriving DecidableEq

/-- The repeated-field scan at the top of every FindAll-style read. -/
def scanListField : List FieldDescr → Option FieldDescr → Except DbErr FieldDescr
  | [], none => .error .noRepeatedField
  | [], some fd => .ok fd
  | fd :: rest, acc =>
    if fd.isList then
      match acc with
      | some _ => .error .multipleRepeated
      | none => scanListField rest (some fd)
    else scanListField rest acc

/-- `listValue.NewElement()`: a fresh element message with every field at
its default. -/
def defaultVal (fd : FieldDescr) : FieldVal :=
  if fd.isList then .vList false
  else if fd.isMap then .vMap false
  else
    match fd.kind with
    | GoKind.int32 | GoKind.int64 | GoKind.sint32 | GoKind.sint64
    | GoKind.sfixed32 | GoKind.sfixed64 => .vInt 0
    | GoKind.uint32 | GoKind.uint64 | GoKind.fixed32 | GoKind.fixed64 => .vUint 0
    | GoKind.float | GoKind.double => .vFloat "0"
    | GoKind.bool => .vBool false
    | GoKind.string => .vStr ""
    | GoKind.bytes => .vBytes []
    | GoKind.enum => .vEnum 0
    | GoKind.message | GoKind.group =>
      if fd.msgTypeFullName = some timestampFullName then .vTimestamp false ⟨1, 1, 1, 0, 0, 0, 0⟩
      else .vMsg false []

/-- Fresh element state for the element descriptor. -/
def freshMsg (fields : List FieldDescr) : MsgState :=
  fields.map (fun fd => (fd, defaultVal fd))

/-- The row loop shared by the FindAll-style reads: decode each row into a
fresh element and append it. -/
def parseRowsLoop (env : GoEnv) (elemFields : List FieldDescr) :
    List (List String) → GoResult DbErr (List MsgState)
  | [] => .ok []
  | row :: rest =>
    match ParseFromString env.pf32 env.pf64 env.unmarshalOK (freshMsg elemFields) row with
    | .ok elem =>
      match parseRowsLoop env elemFields rest with
      | .ok tail => .ok (elem :: tail)
      | .error e => .error e
      | .panic => .panic
    | .error e => .error (.parse e)
    | .panic => .panic

/-- Outcome of a FindAll-style read: the queries actually executed and the
returned value. -/
structure FindOutcome where
  queries : List SqlWithArgs
  result : GoResult DbErr DestState

/-- `PbMysqlDB.FindAllByWhereWithArgs`: container-field scan, table lookup
by the element type's short name, one SELECT, then `Truncate(0)` on the
container followed by one append per decoded row. -/
def FindAllByWhereWithArgs (env : GoEnv) (p : PbMysqlDB) (dest : DestState)
    (whereClause : String) (whereArgs : List String) : FindOutcome :=
  match scanListField dest.fields none with
  | .error e => ⟨[], .error e⟩
  | .ok listField =>
    match listField.msgTypeName with
    | none => ⟨[], .panic⟩
    | some tableName =>
      match p.Tables.lookup tableName with
      | none => ⟨[], .error (.tableNotFound tableName)⟩
      | some table =>
        let sqlWithArgs := GetSelectSQLByWhereWithArgs table whereClause whereArgs
        let rows := p.query sqlWithArgs
        match parseRowsLoop env table.fields rows with
        | .ok elems => ⟨[sqlWithArgs], .ok ⟨dest.fields, elems⟩⟩
        | .error e => ⟨[sqlWithArgs], .error e⟩
        | .panic => ⟨[sqlWithArgs], .panic⟩

/-- `PbMysqlDB.FindAll` delegates with the tautological predicate. -/
def FindAll (env : GoEnv) (p : PbMysqlDB) (dest : DestState) : FindOutcome :=
  FindAllByWhereWithArgs env p dest "1=1" []

/-- `PbMysqlDB.FindMultiByWhereWithArgs` (the source duplicates the
FindAll body). -/
def FindMultiByWhereWithArgs (env : GoEnv) (p : PbMysqlDB) (dest : DestState)
    (whereClause : String) (whereArgs : List String) : FindOutcome :=
  match scanListField dest.fields none with
  | .error e => ⟨[], .error e⟩
  | .ok listField =>
    match listField.msgTypeName with
    | none => ⟨[], .panic⟩
    | some tableName =>
      match p.Tables.lookup tableName with
      | none => ⟨[], .error (.tableNotFound tableName)⟩
      | some table =>
        let sqlWithArgs := GetSelectSQLByWhereWithArgs table whereClause whereArgs
        let rows := p.query sqlWithArgs
        match parseRowsLoop env table.fields rows with
        | .ok elems => ⟨[sqlWithArgs], .ok ⟨dest.fields, elems⟩⟩
        | .error e => ⟨[sqlWithArgs], .error e⟩
        | .panic => ⟨[sqlWithArgs], .panic⟩

/-! ### Schema view (the inputs `GetCreateTableSQL` may depend on) -/

/-- The schema-describing components of a `MessageTable`: everything except
the precomputed SQL fragments and the live-column cache. -/
structure SchemaView where
  tableName : String
  fields : List FieldDescr
  primaryKey : List String
  indexes : List String
  uniqueKeys : String
  autoIncreaseKey : String
  nullableFields : List String
deriving DecidableEq

def MessageTable.schemaView (m : MessageTable) : SchemaView :=
  ⟨m.tableName, m.fields, m.primaryKey, m.indexes, m.uniqueKeys,
    m.autoIncreaseKey, m.nullableFields⟩

/-- An identifier is benign for placeholder counting when it contains no
`?` and no `,` (true of every protobuf identifier, which are ASCII words). -/
def identOK (s : String) : Prop := '?' ∉ s.data ∧ ',' ∉ s.data

instance (s : String) : Decidable (identOK s) := by
  unfold identOK; infer_instance

end proto2mysql

/-! ## Concrete fixtures used by counterexamples and witnesses -/

namespace fixtures

open pbconv proto2mysql

def fdTs : FieldDescr :=
  ⟨"created_at", .message, false, false, some timestampFullName, some "Timestamp"⟩

def fdListStr : FieldDescr := ⟨"tags", .string, true, false, none, none⟩

def dt2023 : DateTime := ⟨2023, 5, 1, 12, 0, 0, 0⟩

/-- No-op float parsers / unmarshal used where the branch under test never
reaches them. -/
def pfNone : String → Option String := fun _ => none

def unmNone : List Nat → Bool := fun _ => false

def fdId : FieldDescr := ⟨"id", .uint64, false, false, none, none⟩

def fdName : FieldDescr := ⟨"name", .string, false, false, none, none⟩

def fdEnum : FieldDescr := ⟨"color", .enum, false, false, none, none⟩

def fdBytes : FieldDescr := ⟨"payload", .bytes, false, false, none, none⟩

def fdSint : FieldDescr := ⟨"zig", .sint32, false, false, none, none⟩

/-- A registered zero-field table (`Init` on an empty descriptor). -/
def tblEmpty : MessageTable := Init { tableName := "empty_msg", fields := [] }

/-- A registered two-column table. -/
def tblPair : MessageTable :=
  Init { tableName := "golang_test", fields := [fdId, fdName], primaryKey := ["id"] }

/-- The table produced by registering a message with a `sint32` field. -/
def tblSint : MessageTable := Init { tableName := "proto.M6", fields := [fdSint] }

/-- `tblPair` after a live-column read populated its cache: the schema is
unchanged. -/
def tblPairCached : MessageTable :=
  { tblPair with cachedColumns := some [("id", "bigint unsigned"), ("name", "mediumtext")] }

/-- A table with one compatible live column (`a`), one stale cached column
(`b`), and one declared column (`c`) missing from the live map. -/
def tblSync : MessageTable :=
  { tableName := "sync_t",
    fields := [⟨"a", .int32, false, false, none, none⟩,
               ⟨"c", .string, false, false, none, none⟩],
    cachedColumns := some [("a", "int"), ("b", "varchar(10)")] }

def fdNum : FieldDescr := ⟨"num", .int32, false, false, none, none⟩

/-- The value the empty-string branch of `ParseFromString` leaves in a
scalar field: the kind's zero value for the numeric, bool and string kinds
it switches on, the previous value for every other kind (enum, bytes). -/
def zeroOrKeep (k : GoKind) (cur : FieldVal) : FieldVal :=
  match k with
  | .int32 | .int64 => .vInt 0
  | .uint32 | .uint64 => .vUint 0
  | .float | .double => .vFloat "0"
  | .bool => .vBool false
  | .string => .vStr ""
  | _ => cur

/-- The scalar kinds of the claim (non-map, non-list, non-message). -/
def scalarKinds : List GoKind :=
  [.int32, .int64, .uint32, .uint64, .float, .double, .bool, .string, .bytes, .enum]

/-- Two repeated fields for the multi-container destination. -/
def fdList1 : FieldDescr := ⟨"rows_a", .message, true, false, some "pkg.ElemT", some "ElemT"⟩

def fdList2 : FieldDescr := ⟨"rows_b", .message, true, false, some "pkg.ElemT", some "ElemT"⟩

/-- The Go runtime collaborators instantiated with inert parsers (never
reached by the witnesses that use them). -/
def env0 : GoEnv := ⟨pfNone, pfNone, unmNone⟩

/-- A database with no registered tables whose query collaborator returns
nothing. -/
def pEmpty : PbMysqlDB := ⟨[], fun _ => []⟩

/-- A destination with no repeated field. -/
def destNoList : DestState := ⟨[fdId, fdName], []⟩

/-- A destination with two repeated fields. -/
def destTwoLists : DestState := ⟨[fdList1, fdList2], []⟩

/-- Element table for the FindAll witnesses. -/
def tblElem : MessageTable := Init { tableName := "ElemT", fields := [fdId] }

/-- A database registering `tblElem` whose query collaborator returns one
row. -/
def pOneRow : PbMysqlDB := ⟨[("ElemT", tblElem)], fun _ => [["7"]]⟩

/-- A single-container destination whose container already holds a stale
element. -/
def destOneList : DestState := ⟨[fdList1], [[(fdId, .vUint 99)]]⟩

/-- One record of the element type, for batch-insert witnesses. -/
def msgB : PbMessage := ⟨"ElemT", [(fdId, .vUint 1)]⟩

/-- The pair table's registration input (before `Init`). -/
def m0Pair : MessageTable :=
  { tableName := "golang_test", fields := [fdId, fdName], primaryKey := ["id"] }

end fixtures

/-! ## Claims -/

open pbconv proto2mysql fixtures

/-- C9: `GetCreateTableSQL` reads only the schema components of a
`MessageTable` (name, fields, keys, indexes, unique key, auto-increment key,
nullable set).  Two tables agreeing on those — in particular the same table
before and after any change to its caches or precomputed fragments — yield
byte-identical DDL text, so repeated calls on an unchanged schema are
byte-identical. -/
theorem C9_create_table_sql_deterministic (m1 m2 : MessageTable)
    (h : m1.schemaView = m2.schemaView) :
    GetCreateTableSQL m1 = GetCreateTableSQL m2 := by
  cases m1
  cases m2
  simp only [MessageTable.schemaView, SchemaView.mk.injEq] at h
  obtain ⟨h1, h2, h3, h4, h5, h6, h7⟩ := h
  subst h1 h2 h3 h4 h5 h6 h7
  rfl

/-- Witness for C9: the registered pair table before and after its
live-column cache is populated. -/
theorem C9_create_table_sql_deterministic_witness :
    tblPair.schemaView = tblPairCached.schemaView ∧
    GetCreateTableSQL tblPair = GetCreateTableSQL tblPairCached :=
  ⟨by decide, C9_create_table_sql_deterministic tblPair tblPairCached (by decide)⟩

/-- C6 counterexample: registering a message with a `sint32` field — a kind
absent from `MySQLFieldTypes` — succeeds (RegisterTable has no error
return), and the unknown kind is silently mapped to the default column type
`TEXT`, contradicting the claim that an unknown kind produces a
configuration error and is never silently defaulted. -/
theorem C6_counterexample_silent_text_default :
    MySQLFieldTypes GoKind.sint32 = none ∧
    RegisterTable [] "proto.M6" [fdSint] [] = [("proto.M6", tblSint)] ∧
    getMySQLFieldType tblSint fdSint = "TEXT" := by
  decide

/-- C6 (amended): for every field whose kind is not in the type mapping
table (and which is not a map, list, or Timestamp field), registration
succeeds and the field is silently mapped to the default column type `TEXT`
(with the auto-increment attribute appended when configured); no
configuration error exists. -/
theorem C6_unknown_kind_maps_to_text (m : MessageTable) (fd : FieldDescr)
    (hk : MySQLFieldTypes fd.kind = none)
    (hts : ¬fd.msgTypeFullName = some timestampFullName)
    (hm : fd.isMap = false) (hl : fd.isList = false) :
    getMySQLFieldType m fd =
      if m.autoIncreaseKey = fd.name then "TEXT AUTO_INCREMENT" else "TEXT" := by
  have hnn : strReplaceAll "TEXT" " NOT NULL" "" = "TEXT" := by decide
  have hd0 : strReplaceAll "TEXT" " DEFAULT 0" "" = "TEXT" := by decide
  by_cases hnul : m.nullableFields.contains fd.name <;>
    by_cases hai : m.autoIncreaseKey = fd.name <;>
      simp [getMySQLFieldType, hk, hts, hm, hl, hnul, hai, hnn, hd0]

/-- Witness for C6 (amended) at the `sint32` fixture. -/
theorem C6_unknown_kind_maps_to_text_witness :
    (MySQLFieldTypes fdSint.kind = none ∧
      ¬fdSint.msgTypeFullName = some timestampFullName ∧
      fdSint.isMap = false ∧ fdSint.isList = false) ∧
    getMySQLFieldType tblSint fdSint =
      if tblSint.autoIncreaseKey = fdSint.name then "TEXT AUTO_INCREMENT" else "TEXT" :=
  ⟨by decide,
   C6_unknown_kind_maps_to_text tblSint fdSint (by decide) (by decide)
     (by decide) (by decide)⟩

/-- C3 (code bug evaluated at the failing input): synchronizing `tblSync`
emits exactly one ADD COLUMN clause (for the absent column `c`) and no
clause for the compatible column `a`, issues them as a single ALTER TABLE
statement — but when that statement fails the cached live-column map is NOT
left unchanged: the loop's `delete` calls have already removed every matched
declared column (`a`) from the aliased cache. -/
theorem C3_cache_mutated_on_failed_alter :
    UpdateTableField tblSync [] false =
      ⟨["ALTER TABLE sync_t ADD COLUMN c MEDIUMTEXT"],
        .error (.execFailed "ALTER TABLE sync_t ADD COLUMN c MEDIUMTEXT"),
        some [("b", "varchar(10)")]⟩ ∧
    tblSync.cachedColumns = some [("a", "int"), ("b", "varchar(10)")] ∧
    (UpdateTableField tblSync [] false).cachedColumns ≠ tblSync.cachedColumns := by
  decide

/-- C1 (code bug evaluated at the failing input): a set Timestamp field
serializes to its column text, but deserializing that very text panics —
`ParseFromString` stores the re-marshalled timestamp with
`protoreflect.ValueOfBytes` into a message-typed field, a type mismatch that
`protoreflect.Message.Set` rejects by panicking — so
`Deserialize(Serialize(v)) == v` fails for the timestamp kind.  A present
list field fails even earlier: `SerializeFieldAsString` marshals a wrapper
whose `ProtoReflect` is nil, which panics inside `proto.Marshal`. -/
theorem C1_timestamp_roundtrip_panics :
    SerializeFieldAsString fdTs (.vTimestamp true dt2023) = .ok "2023-05-01 12:00:00" ∧
    parseColumn pfNone pfNone unmNone fdTs "2023-05-01 12:00:00"
      (.vTimestamp true dt2023) = .panic ∧
    SerializeFieldAsString fdListStr (.vList true) = .panic := by
  decide

/-- C7 counterexample: an empty-string column for an `enum` field leaves the
destination field untouched instead of setting the kind's zero value (here
the previously-populated value 5 survives), and a bytes column that fails
base64 decoding reports an error that carries the field name but not the
offending raw value. -/
theorem C7_counterexample_enum_empty_and_bytes_error :
    parseColumn pfNone pfNone unmNone fdEnum "" (.vEnum 5) = .ok (.vEnum 5) ∧
    FieldVal.vEnum 5 ≠ FieldVal.vEnum 0 ∧
    parseColumn pfNone pfNone unmNone fdBytes "#" (.vBytes [1, 2]) =
      .error ⟨"decode bytes field", "payload", none⟩ := by
  decide

/-- C7 (amended): for every scalar (non-map, non-list, non-message) column,
an empty stored value is never an error: it sets the kind's zero value for
the numeric, bool and string kinds and leaves the field unchanged for enum
and bytes (which coincides with the zero value on a freshly created
destination); and every error returned for a non-empty stored value carries
the field name, and also the offending raw value except for base64 decoding
failures of bytes columns. -/
theorem C7_scalar_empty_zero_and_error_contents
    (pf32 pf64 : String → Option String) (u : List Nat → Bool)
    (fd : FieldDescr) (cur : FieldVal) (v : String)
    (hscalar : fd.kind ∈ scalarKinds)
    (hts : fd.msgTypeFullName = none)
    (hm : fd.isMap = false) (hl : fd.isList = false) :
    parseColumn pf32 pf64 u fd "" cur = .ok (zeroOrKeep fd.kind cur) ∧
    ∀ e, parseColumn pf32 pf64 u fd v cur = .error e →
      e.fieldName = fd.name ∧
      (fd.kind ≠ .bytes → e.rawValue = some v) ∧
      (fd.kind = .bytes → e.rawValue = none) := by
  have hts' : isTimestampParse fd = false := by
    simp [isTimestampParse, hts]
  simp only [scalarKinds, List.mem_cons, List.not_mem_nil, or_false] at hscalar
  rcases hscalar with hk | hk | hk | hk | hk | hk | hk | hk | hk | hk <;>
  · constructor
    · simp [parseColumn, hts', hm, hl, hk, fixtures.zeroOrKeep]
    · intro e he
      by_cases hv : v = ""
      · subst hv
        simp [parseColumn, hts', hm, hl, hk] at he
      · simp only [parseColumn, hts', hm, hl, hk, Bool.false_eq_true, if_false,
          if_neg hv] at he
        try split at he
        all_goals try rw [GoResult.error.injEq] at he
        all_goals try subst e
        all_goals simp_all

/-- Witness for C7 (amended) at an `int32` column with a previously
populated destination field, an empty stored value, and the unparsable
stored value `"abc"`. -/
theorem C7_scalar_empty_zero_and_error_contents_witness :
    (fdNum.kind ∈ scalarKinds ∧ fdNum.msgTypeFullName = none ∧
      fdNum.isMap = false ∧ fdNum.isList = false) ∧
    (parseColumn pfNone pfNone unmNone fdNum "" (.vInt 7) =
        .ok (zeroOrKeep fdNum.kind (.vInt 7)) ∧
      ∀ e, parseColumn pfNone pfNone unmNone fdNum "abc" (.vInt 7) = .error e →
        e.fieldName = fdNum.name ∧
        (fdNum.kind ≠ .bytes → e.rawValue = some "abc") ∧
        (fdNum.kind = .bytes → e.rawValue = none)) :=
  ⟨by decide,
   C7_scalar_empty_zero_and_error_contents pfNone pfNone unmNone fdNum
     (.vInt 7) "abc" (by decide) (by decide) (by decide) (by decide)⟩

/-- The container scan returns the no-repeated-field error when no field is
repeated (for any accumulator state, the loop invariant). -/
theorem scanListField_of_no_list (fds : List FieldDescr) (acc : Option FieldDescr)
    (h : fds.countP (fun fd => fd.isList) = 0) :
    scanListField fds acc =
      match acc with
      | none => .error DbErr.noRepeatedField
      | some fd => .ok fd := by
  induction fds generalizing acc with
  | nil => cases acc <;> rfl
  | cons fd rest ih =>
    rw [List.countP_cons] at h
    have hfd : fd.isList = false := by
      by_contra hx
      simp [eq_true_of_ne_false hx] at h
    have hrest : rest.countP (fun fd => fd.isList) = 0 := by omega
    simp [scanListField, hfd, ih _ hrest]

/-- The container scan returns the multiple-repeated error as soon as two
repeated fields exist (counting one for an already-found accumulator). -/
theorem scanListField_of_two_lists (fds : List FieldDescr) (acc : Option FieldDescr)
    (h : 2 ≤ fds.countP (fun fd => fd.isList) + (if acc.isSome then 1 else 0)) :
    scanListField fds acc = .error DbErr.multipleRepeated := by
  induction fds generalizing acc with
  | nil =>
    exfalso
    cases acc <;> simp at h
  | cons fd rest ih =>
    rw [List.countP_cons] at h
    by_cases hfd : fd.isList
    · cases acc with
      | some a => simp [scanListField, hfd]
      | none =>
        simp only [scanListField, hfd, if_true]
        apply ih
        simpa [hfd] using h
    · have hfd' : fd.isList = false := by simpa using hfd
      simp only [scanListField, hfd', Bool.false_eq_true, if_false]
      apply ih
      simpa [hfd'] using h

/-- C5: every FindAll-style read (FindAll, FindAllByWhereWithArgs,
FindMultiByWhereWithArgs) rejects a destination with zero repeated fields
with the no-repeated-field error and a destination with two or more
repeated fields with the multiple-repeated-fields error, in both cases
executing no query at all. -/
theorem C5_container_arity_checked_before_query :
    (∀ (env : GoEnv) (p : PbMysqlDB) (dest : DestState) (w : String)
        (a : List String),
      dest.fields.countP (fun fd => fd.isList) = 0 →
        FindAllByWhereWithArgs env p dest w a = ⟨[], .error .noRepeatedField⟩ ∧
        FindMultiByWhereWithArgs env p dest w a = ⟨[], .error .noRepeatedField⟩ ∧
        FindAll env p dest = ⟨[], .error .noRepeatedField⟩) ∧
    (∀ (env : GoEnv) (p : PbMysqlDB) (dest : DestState) (w : String)
        (a : List String),
      2 ≤ dest.fields.countP (fun fd => fd.isList) →
        FindAllByWhereWithArgs env p dest w a = ⟨[], .error .multipleRepeated⟩ ∧
        FindMultiByWhereWithArgs env p dest w a = ⟨[], .error .multipleRepeated⟩ ∧
        FindAll env p dest = ⟨[], .error .multipleRepeated⟩) := by
  constructor
  · intro env p dest w a h
    have hs := scanListField_of_no_list dest.fields none h
    refine ⟨?_, ?_, ?_⟩ <;>
      simp [FindAllByWhereWithArgs, FindMultiByWhereWithArgs, FindAll, hs]
  · intro env p dest w a h
    have hs := scanListField_of_two_lists dest.fields none (by simpa using h)
    refine ⟨?_, ?_, ?_⟩ <;>
      simp [FindAllByWhereWithArgs, FindMultiByWhereWithArgs, FindAll, hs]

/-- Witness for C5: a destination with no repeated field and one with two
repeated fields, against a database whose query collaborator would return
rows if it were ever consulted. -/
theorem C5_container_arity_checked_before_query_witness :
    (destNoList.fields.countP (fun fd => fd.isList) = 0 ∧
      FindAllByWhereWithArgs env0 pEmpty destNoList "1=1" [] =
        ⟨[], .error .noRepeatedField⟩ ∧
      FindMultiByWhereWithArgs env0 pEmpty destNoList "1=1" [] =
        ⟨[], .error .noRepeatedField⟩ ∧
      FindAll env0 pEmpty destNoList = ⟨[], .error .noRepeatedField⟩) ∧
    (2 ≤ destTwoLists.fields.countP (fun fd => fd.isList) ∧
      FindAllByWhereWithArgs env0 pEmpty destTwoLists "1=1" [] =
        ⟨[], .error .multipleRepeated⟩ ∧
      FindMultiByWhereWithArgs env0 pEmpty destTwoLists "1=1" [] =
        ⟨[], .error .multipleRepeated⟩ ∧
      FindAll env0 pEmpty destTwoLists = ⟨[], .error .multipleRepeated⟩) :=
  ⟨⟨by decide,
    C5_container_arity_checked_before_query.1 env0 pEmpty destNoList "1=1" []
      (by decide)⟩,
   ⟨by decide,
    C5_container_arity_checked_before_query.2 env0 pEmpty destTwoLists "1=1" []
      (by decide)⟩⟩

/-- The row loop produces one decoded element per result row. -/
theorem parseRowsLoop_length (env : GoEnv) (ef : List FieldDescr) :
    ∀ (rows : List (List String)) (elems : List MsgState),
      parseRowsLoop env ef rows = .ok elems → elems.length = rows.length := by
  intro rows
  induction rows with
  | nil =>
    intro elems h
    simp [parseRowsLoop] at h
    simp [← h]
  | cons row rest ih =>
    intro elems h
    simp only [parseRowsLoop] at h
    split at h
    · split at h
      · rw [GoResult.ok.injEq] at h
        subst elems
        simp [ih _ (by assumption)]
      · exact absurd h (by simp)
      · exact absurd h (by simp)
    · exact absurd h (by simp)
    · exact absurd h (by simp)

/-- Placeholder counting distributes over string append. -/
theorem countQ_append (a b : String) : countQ (a ++ b) = countQ a + countQ b := by
  simp [countQ, String.data_append, List.count_append]

/-- Keyword quoting adds only backticks, so it never changes the
placeholder count of an identifier. -/
theorem countQ_escapeMySQLName (s : String) :
    countQ (escapeMySQLName s) = countQ s := by
  unfold escapeMySQLName
  split
  · rw [countQ_append, countQ_append]
    have hbt : countQ "`" = 0 := by decide
    rw [hbt]
    omega
  · rfl

/-- Joining one-placeholder clauses with a placeholder-free separator gives
one placeholder per clause. -/
theorem countQ_goJoin_ones (sep : String) (hsep : countQ sep = 0) :
    ∀ l : List String, (∀ s ∈ l, countQ s = 1) →
      countQ (goJoin sep l) = l.length := by
  intro l
  induction l with
  | nil => intro _; rfl
  | cons x xs ih =>
    intro hall
    cases xs with
    | nil => simpa using hall x (by simp)
    | cons y ys =>
      have hx : countQ x = 1 := hall x (by simp)
      have hrest : countQ (goJoin sep (y :: ys)) = (y :: ys).length :=
        ih (fun s hs => hall s (by simp [hs]))
      calc countQ (goJoin sep (x :: y :: ys))
          = countQ x + countQ sep + countQ (goJoin sep (y :: ys)) := by
            simp [goJoin, countQ_append]
        _ = (x :: y :: ys).length := by
            rw [hx, hsep, hrest]; simp [Nat.add_comm]

/-- `serializeAll` yields one argument per declared field. -/
theorem serializeAll_length :
    ∀ (msg : MsgState) (args : List String),
      serializeAll msg = .ok args → args.length = msg.length := by
  intro msg
  induction msg with
  | nil =>
    intro args h
    simp [serializeAll] at h
    simp [← h]
  | cons p rest ih =>
    intro args h
    obtain ⟨fd, v⟩ := p
    simp only [serializeAll] at h
    split at h
    · split at h
      · rw [GoResult.ok.injEq] at h
        subst args
        simp [ih _ (by assumption)]
      · exact absurd h (by simp)
      · exact absurd h (by simp)
    · exact absurd h (by simp)
    · exact absurd h (by simp)

/-- The ON DUPLICATE KEY UPDATE loop emits exactly one `name = ?` clause
and one argument per field `Has` reports present, in declared order. -/
theorem dupUpdateClauses_spec :
    ∀ (msg : MsgState) (cs uargs : List String),
      dupUpdateClauses msg = .ok (cs, uargs) →
      cs = (msg.filter (fun p => reflectHas p.2)).map
          (fun p => escapeMySQLName p.1.name ++ " = ?") ∧
      uargs.length = (msg.filter (fun p => reflectHas p.2)).length := by
  intro msg
  induction msg with
  | nil =>
    intro cs uargs h
    simp only [dupUpdateClauses, GoResult.ok.injEq, Prod.mk.injEq] at h
    obtain ⟨h1, h2⟩ := h
    subst h1
    subst h2
    simp
  | cons p rest ih =>
    intro cs uargs h
    obtain ⟨fd, v⟩ := p
    simp only [dupUpdateClauses] at h
    by_cases hpres : reflectHas v
    · rw [if_pos hpres] at h
      split at h
      · split at h
        · rename_i X Y hrec
          obtain ⟨hcs, huargs⟩ := ih X Y hrec
          rw [GoResult.ok.injEq, Prod.mk.injEq] at h
          obtain ⟨h1, h2⟩ := h
          subst h1
          subst h2
          simp [List.filter_cons, hpres, hcs, huargs]
        · exact absurd h (by simp)
        · exact absurd h (by simp)
      · exact absurd h (by simp)
      · exact absurd h (by simp)
    · rw [if_neg hpres] at h
      obtain ⟨hcs, huargs⟩ := ih cs uargs h
      simp [List.filter_cons, hpres, hcs, huargs]

/-- C8: the upsert statement's ON DUPLICATE KEY UPDATE clause holds exactly
one assignment and one `?` argument per field reported present on the
record (and is omitted entirely when no field is present), while the INSERT
part is the full-column template with one VALUES argument for every
declared field, present or not. -/
theorem C8_upsert_sparse_update_full_insert (m : MessageTable) (msg : MsgState)
    (args cs uargs : List String)
    (hser : serializeAll msg = .ok args)
    (hdup : dupUpdateClauses msg = .ok (cs, uargs))
    (hq : ∀ p ∈ msg, '?' ∉ p.1.name.data) :
    args.length = msg.length ∧
    cs.length = (msg.filter (fun p => reflectHas p.2)).length ∧
    uargs.length = (msg.filter (fun p => reflectHas p.2)).length ∧
    countQ (goJoin ", " cs) = (msg.filter (fun p => reflectHas p.2)).length ∧
    (cs = [] →
      GetInsertOnDupUpdateSQLWithArgs m msg = .ok ⟨m.insertSQLTemplate, args⟩) ∧
    (cs ≠ [] →
      GetInsertOnDupUpdateSQLWithArgs m msg =
        .ok ⟨m.insertSQLTemplate ++ " ON DUPLICATE KEY UPDATE " ++ goJoin ", " cs,
          args ++ uargs⟩) := by
  obtain ⟨hcs, hlen⟩ := dupUpdateClauses_spec msg cs uargs hdup
  have hcslen : cs.length = (msg.filter (fun p => reflectHas p.2)).length := by
    rw [hcs, List.length_map]
  have hones : ∀ s ∈ cs, countQ s = 1 := by
    intro s hs
    rw [hcs] at hs
    obtain ⟨p, hp, rfl⟩ := List.mem_map.mp hs
    rw [countQ_append, countQ_escapeMySQLName]
    have hq0 : countQ p.1.name = 0 :=
      List.count_eq_zero.mpr (hq p (List.mem_filter.mp hp).1)
    rw [hq0]
    decide
  refine ⟨serializeAll_length msg args hser, hcslen, hlen, ?_, ?_, ?_⟩
  · rw [countQ_goJoin_ones ", " (by decide) cs hones, hcslen]
  · intro hnil
    simp [GetInsertOnDupUpdateSQLWithArgs, GetInsertSQLWithArgs, hser, hdup, hnil]
  · intro hnnil
    simp [GetInsertOnDupUpdateSQLWithArgs, GetInsertSQLWithArgs, hser, hdup, hnnil]

/-- Witness for C8: a record on the registered pair table with `id` present
and `name` absent gets a one-assignment UPDATE clause over both-column
INSERT arguments. -/
theorem C8_upsert_sparse_update_full_insert_witness :
    (serializeAll [(fdId, .vUint 5), (fdName, .vStr "")] = .ok ["5", ""] ∧
      dupUpdateClauses [(fdId, .vUint 5), (fdName, .vStr "")] =
        .ok (["id = ?"], ["5"]) ∧
      (∀ p ∈ [(fdId, FieldVal.vUint 5), (fdName, FieldVal.vStr "")],
        '?' ∉ p.1.name.data)) ∧
    (["5", ""].length = [(fdId, FieldVal.vUint 5), (fdName, FieldVal.vStr "")].length ∧
      ["id = ?"].length =
        ([(fdId, FieldVal.vUint 5), (fdName, FieldVal.vStr "")].filter
          (fun p => reflectHas p.2)).length ∧
      ["5"].length =
        ([(fdId, FieldVal.vUint 5), (fdName, FieldVal.vStr "")].filter
          (fun p => reflectHas p.2)).length ∧
      countQ (goJoin ", " ["id = ?"]) =
        ([(fdId, FieldVal.vUint 5), (fdName, FieldVal.vStr "")].filter
          (fun p => reflectHas p.2)).length ∧
      ((["id = ?"] : List String) = [] →
        GetInsertOnDupUpdateSQLWithArgs tblPair [(fdId, .vUint 5), (fdName, .vStr "")] =
          .ok ⟨tblPair.insertSQLTemplate, ["5", ""]⟩) ∧
      ((["id = ?"] : List String) ≠ [] →
        GetInsertOnDupUpdateSQLWithArgs tblPair [(fdId, .vUint 5), (fdName, .vStr "")] =
          .ok ⟨tblPair.insertSQLTemplate ++ " ON DUPLICATE KEY UPDATE " ++
              goJoin ", " ["id = ?"],
            ["5", ""] ++ ["5"]⟩)) :=
  ⟨⟨by decide, by decide, by decide⟩,
   C8_upsert_sparse_update_full_insert tblPair
     [(fdId, .vUint 5), (fdName, .vStr "")] ["5", ""] ["id = ?"] ["5"]
     (by decide) (by decide) (by decide)⟩

/-- A nonempty batch within the limit is a single chunk. -/
theorem chunksGo_short {α : Type} (l : List α) (h0 : l ≠ [])
    (h : l.length ≤ BatchInsertMaxSize) : chunksGo l = [l] := by
  cases l with
  | nil => exact absurd rfl h0
  | cons x xs =>
    rw [chunksGo]
    rw [dif_pos h]

/-- A batch beyond the limit splits off one full chunk. -/
theorem chunksGo_long {α : Type} (l : List α)
    (h : BatchInsertMaxSize < l.length) :
    chunksGo l = l.take BatchInsertMaxSize :: chunksGo (l.drop BatchInsertMaxSize) := by
  cases l with
  | nil => simp at h
  | cons x xs =>
    rw [chunksGo]
    rw [dif_neg (by omega)]

/-- `strings.Repeat` length. -/
theorem repeatStr_data_length (s : String) :
    ∀ n, (repeatStr s n).data.length = n * s.data.length := by
  intro n
  induction n with
  | zero => simp [repeatStr]
  | succ k ih =>
    simp [repeatStr, String.data_append, ih]
    ring

/-- A pointwise-serializable message serializes whole, one argument per
field. -/
theorem serializeAll_ok_of_pointwise :
    ∀ st : MsgState,
      (∀ p ∈ st, ∃ s, SerializeFieldAsString p.1 p.2 = .ok s) →
      ∃ args, serializeAll st = .ok args ∧ args.length = st.length := by
  intro st
  induction st with
  | nil => intro _; exact ⟨[], rfl, rfl⟩
  | cons p rest ih =>
    intro h
    obtain ⟨fd, v⟩ := p
    obtain ⟨s, hs⟩ := h (fd, v) (by simp)
    obtain ⟨args, hargs, hlen⟩ := ih (fun q hq => h q (by simp [hq]))
    refine ⟨s :: args, ?_, by simp [hlen]⟩
    have hs' : SerializeFieldAsString fd v = .ok s := hs
    simp only [serializeAll]
    rw [hs', hargs]

/-- Flattening messages of a common field count multiplies lengths. -/
theorem flatten_length_const :
    ∀ (l : List MsgState) (n : Nat), (∀ msg ∈ l, msg.length = n) →
      l.flatten.length = l.length * n := by
  intro l
  induction l with
  | nil => intro n _; simp
  | cons msg rest ih =>
    intro n h
    simp only [List.flatten_cons, List.length_append, List.length_cons]
    rw [h msg (by simp), ih n (fun q hq => h q (by simp [hq]))]
    ring

/-- A batch of at most the limit over a table with at least one declared
field builds successfully, with one argument per field per record. -/
theorem batch_builder_ok (m : MessageTable) (msgs : List MsgState)
    (h0 : msgs ≠ []) (hlen : msgs.length ≤ BatchInsertMaxSize)
    (hdesc : ∀ msg ∈ msgs, msg.map Prod.fst = m.fields)
    (hf : 1 ≤ m.fields.length)
    (hser : ∀ msg ∈ msgs, ∀ p ∈ msg, ∃ s, SerializeFieldAsString p.1 p.2 = .ok s) :
    ∃ sa, GetBatchInsertSQLWithArgs m msgs = .ok sa ∧
      sa.Args.length = msgs.length * m.fields.length := by
  cases msgs with
  | nil => exact absurd rfl h0
  | cons first rest =>
    have hmlen : ∀ msg ∈ first :: rest, msg.length = m.fields.length := by
      intro msg hm
      have := hdesc msg hm
      calc msg.length = (msg.map Prod.fst).length := by simp
        _ = m.fields.length := by rw [this]
    obtain ⟨args, hargs, hargslen⟩ :=
      serializeAll_ok_of_pointwise (first :: rest).flatten
        (fun p hp => by
          obtain ⟨msg, hmsg, hpm⟩ := List.mem_flatten.mp hp
          exact hser msg hmsg p hpm)
    have hslice : sliceDropLast2 (repeatStr "?, " m.fields.length) =
        .ok ⟨(repeatStr "?, " m.fields.length).data.take
          ((repeatStr "?, " m.fields.length).data.length - 2)⟩ := by
      unfold sliceDropLast2
      rw [if_neg]
      rw [repeatStr_data_length]
      simp only [not_lt]
      calc 2 ≤ 1 * 3 := by omega
        _ ≤ m.fields.length * ("?, ".data.length) := by
            apply Nat.mul_le_mul hf
            decide
    have hnosame : (rest.any fun msg => msg.map Prod.fst ≠ first.map Prod.fst) = false := by
      simp only [List.any_eq_false]
      intro msg hm
      simp only [ne_eq, decide_not, Bool.not_eq_true', decide_eq_false_iff_not,
        Decidable.not_not]
      rw [hdesc msg (by simp [hm]), hdesc first (by simp)]
    refine ⟨⟨"INSERT INTO " ++ escapeMySQLName m.tableName ++ " (" ++
        m.fieldsListSQL ++ ") VALUES (" ++
        goJoin "), (" (List.replicate (first :: rest).length
          (String.mk ((repeatStr "?, " m.fields.length).data.take
            ((repeatStr "?, " m.fields.length).data.length - 2)))) ++ ")",
      args⟩, ?_, ?_⟩
    · simp only [GetBatchInsertSQLWithArgs]
      rw [if_neg (by omega)]
      rw [hnosame]
      simp only [Bool.false_eq_true, if_false]
      rw [hargs, hslice]
    · simpa [hargslen] using flatten_length_const (first :: rest) m.fields.length hmlen

/-- Comma counting distributes over string append. -/
theorem countC_append (a b : String) : countC (a ++ b) = countC a + countC b := by
  simp [countC, String.data_append, List.count_append]

/-- Keyword quoting never changes the comma count of an identifier. -/
theorem countC_escapeMySQLName (s : String) :
    countC (escapeMySQLName s) = countC s := by
  unfold escapeMySQLName
  split
  · rw [countC_append, countC_append]
    have hbt : countC "`" = 0 := by decide
    rw [hbt]
    omega
  · rfl

/-- Placeholder count of a join with a placeholder-free separator. -/
theorem countQ_goJoin_sum (sep : String) (hsep : countQ sep = 0) :
    ∀ l : List String, countQ (goJoin sep l) = (l.map countQ).sum := by
  intro l
  induction l with
  | nil => rfl
  | cons x xs ih =>
    cases xs with
    | nil => simp [goJoin]
    | cons y ys =>
      simp only [goJoin] at ih ⊢
      rw [countQ_append, countQ_append, hsep, ih]
      simp

/-- Comma count of the comma-space join of comma-free identifiers: one
separator between consecutive entries. -/
theorem countC_goJoin_commafree :
    ∀ l : List String, (∀ s ∈ l, countC s = 0) → l ≠ [] →
      countC (goJoin ", " l) = l.length - 1 := by
  intro l
  induction l with
  | nil => intro _ h; exact absurd rfl h
  | cons x xs ih =>
    intro hall _
    cases xs with
    | nil => simpa [goJoin] using hall x (by simp)
    | cons y ys =>
      have hx : countC x = 0 := hall x (by simp)
      have hrest := ih (fun s hs => hall s (by simp [hs])) (by simp)
      simp only [goJoin] at hrest ⊢
      rw [countC_append, countC_append, hx, hrest]
      have hcs : countC ", " = 1 := by decide
      rw [hcs]
      simp only [List.length_cons]
      omega

/-- Each repetition of `"?, "` contributes one placeholder. -/
theorem countQ_repeatStr_qcs : ∀ n, countQ (repeatStr "?, " n) = n := by
  intro n
  induction n with
  | zero => rfl
  | succ k ih =>
    simp only [repeatStr]
    rw [countQ_append, ih]
    have : countQ "?, " = 1 := by decide
    rw [this]
    omega

/-- Trimming the trailing `", "` removes no placeholder. -/
theorem countQ_trimSuffix_comma_space (s : String) :
    countQ (trimSuffix s ", ") = countQ s := by
  unfold trimSuffix
  split
  · rename_i h
    obtain ⟨t, ht⟩ := List.isSuffixOf_iff_suffix.mp h
    have hd : (", " : String).data = [',', ' '] := by decide
    rw [hd] at ht
    have h2 : (", " : String).data.length = 2 := by decide
    simp only [countQ, h2]
    have hlen : s.data.length = t.length + 2 := by
      rw [← ht]
      simp
    rw [hlen]
    have htake : List.take (t.length + 2 - 2) s.data = t := by
      rw [← ht]
      simpa using List.take_left t [',', ' ']
    rw [htake, ← ht, List.count_append]
    have hcz : List.count '?' [',', ' '] = 0 := by decide
    rw [hcz]
    omega
  · rfl

/-- When a string both ends in `", "` and has length at least two, the Go
slice `s[:len(s)-2]` and `strings.TrimSuffix(s, ", ")` agree. -/
theorem sliceDropLast2_eq_trim (s : String) (h2 : 2 ≤ s.data.length)
    (hsuf : (", " : String).data.isSuffixOf s.data) :
    sliceDropLast2 s = .ok (trimSuffix s ", ") := by
  unfold sliceDropLast2 trimSuffix
  rw [if_neg (by omega), if_pos hsuf]
  have : (", " : String).data.length = 2 := by decide
  rw [this]

/-- A positive repetition of `"?, "` ends in `", "`. -/
theorem repeatStr_qcs_suffix :
    ∀ n, 1 ≤ n → ∃ t, t ++ [',', ' '] = (repeatStr "?, " n).data := by
  intro n
  induction n with
  | zero => intro h; omega
  | succ k ih =>
    intro _
    cases Nat.eq_zero_or_pos k with
    | inl hk =>
      subst hk
      exact ⟨['?'], by decide⟩
    | inr hk =>
      obtain ⟨t, ht⟩ := ih hk
      refine ⟨'?' :: ',' :: ' ' :: t, ?_⟩
      simp only [repeatStr, String.data_append]
      rw [← ht]
      rfl

/-- The field list `Init` caches is the comma-space join of the escaped
field names. -/
theorem Init_fieldsListSQL (m0 : MessageTable) :
    (Init m0).fieldsListSQL =
      goJoin ", " (m0.fields.map (fun fd => escapeMySQLName fd.name)) := rfl

/-- The cached INSERT template, spelled out. -/
theorem Init_insertSQLTemplate (m0 : MessageTable) :
    (Init m0).insertSQLTemplate =
      "INSERT INTO " ++ escapeMySQLName m0.tableName ++ " (" ++
        (Init m0).fieldsListSQL ++ ") VALUES (" ++
        trimSuffix (repeatStr "?, " (countC (Init m0).fieldsListSQL + 1)) ", " ++
        ")" := rfl

/-- The cached SELECT prefix, spelled out. -/
theorem Init_selectFieldsSQL (m0 : MessageTable) :
    (Init m0).selectFieldsSQL =
      "SELECT " ++ (Init m0).fieldsListSQL ++ " FROM " ++
        escapeMySQLName m0.tableName := rfl

/-- The cached REPLACE prefix, spelled out. -/
theorem Init_replaceSQL (m0 : MessageTable) :
    (Init m0).replaceSQL =
      "REPLACE INTO " ++ escapeMySQLName m0.tableName ++ " (" ++
        (Init m0).fieldsListSQL ++ ") VALUES (" := rfl

/-- The cached delete-by-primary-key template, spelled out. -/
theorem Init_deleteByPKTemplate (m0 : MessageTable) :
    (Init m0).deleteByPKTemplate =
      match (Init m0).primaryKeyField with
      | some fd => "DELETE FROM " ++ escapeMySQLName m0.tableName ++
          " WHERE " ++ escapeMySQLName fd.name ++ " = ?"
      | none => m0.deleteByPKTemplate := rfl

/-- The resolved primary-key descriptor, spelled out. -/
theorem Init_primaryKeyField (m0 : MessageTable) :
    (Init m0).primaryKeyField =
      match m0.primaryKey with
      | [] => none
      | pk :: _ => m0.fields.find? (fun fd => fd.name = pk) := rfl

/-- `Init` does not change the declared fields, schema options or table
name. -/
theorem Init_fields (m0 : MessageTable) : (Init m0).fields = m0.fields := rfl

/-- The cached field list contains no placeholder when the identifiers are
benign. -/
theorem fieldsListSQL_countQ (m0 : MessageTable)
    (hnames : ∀ fd ∈ m0.fields, identOK fd.name) :
    countQ (Init m0).fieldsListSQL = 0 := by
  rw [Init_fieldsListSQL, countQ_goJoin_sum ", " (by decide)]
  apply List.sum_eq_zero
  intro x hx
  simp only [List.map_map, List.mem_map, Function.comp] at hx
  obtain ⟨fd, hfd, rfl⟩ := hx
  rw [countQ_escapeMySQLName]
  exact List.count_eq_zero.mpr (hnames fd hfd).1

/-- The cached field list has one comma between consecutive benign
identifiers. -/
theorem fieldsListSQL_countC (m0 : MessageTable)
    (hnames : ∀ fd ∈ m0.fields, identOK fd.name) (hne : m0.fields ≠ []) :
    countC (Init m0).fieldsListSQL = m0.fields.length - 1 := by
  rw [Init_fieldsListSQL]
  rw [countC_goJoin_commafree _ ?_ (by simpa using hne)]
  · simp
  · intro s hs
    obtain ⟨fd, hfd, rfl⟩ := List.mem_map.mp hs
    rw [countC_escapeMySQLName]
    exact List.count_eq_zero.mpr (hnames fd hfd).2

/-- The cached INSERT template has exactly one placeholder per declared
field. -/
theorem insertSQLTemplate_countQ (m0 : MessageTable)
    (htn : identOK m0.tableName)
    (hnames : ∀ fd ∈ m0.fields, identOK fd.name) (hne : m0.fields ≠ []) :
    countQ (Init m0).insertSQLTemplate = m0.fields.length := by
  rw [Init_insertSQLTemplate]
  simp only [countQ_append]
  rw [countQ_trimSuffix_comma_space, countQ_repeatStr_qcs, countQ_escapeMySQLName,
    fieldsListSQL_countQ m0 hnames, fieldsListSQL_countC m0 hnames hne]
  have h1 : countQ "INSERT INTO " = 0 := by decide
  have h2 : countQ " (" = 0 := by decide
  have h3 : countQ ") VALUES (" = 0 := by decide
  have h4 : countQ ")" = 0 := by decide
  have h5 : countQ m0.tableName = 0 := List.count_eq_zero.mpr htn.1
  have h6 : 1 ≤ m0.fields.length := List.length_pos.mpr hne
  rw [h1, h2, h3, h4, h5]
  omega

/-- The cached SELECT prefix has no placeholder. -/
theorem selectFieldsSQL_countQ (m0 : MessageTable)
    (htn : identOK m0.tableName)
    (hnames : ∀ fd ∈ m0.fields, identOK fd.name) :
    countQ (Init m0).selectFieldsSQL = 0 := by
  rw [Init_selectFieldsSQL]
  simp only [countQ_append]
  rw [countQ_escapeMySQLName, fieldsListSQL_countQ m0 hnames]
  have h1 : countQ "SELECT " = 0 := by decide
  have h2 : countQ " FROM " = 0 := by decide
  have h5 : countQ m0.tableName = 0 := List.count_eq_zero.mpr htn.1
  rw [h1, h2, h5]

/-- The cached REPLACE prefix has no placeholder. -/
theorem replaceSQL_countQ (m0 : MessageTable)
    (htn : identOK m0.tableName)
    (hnames : ∀ fd ∈ m0.fields, identOK fd.name) :
    countQ (Init m0).replaceSQL = 0 := by
  rw [Init_replaceSQL]
  simp only [countQ_append]
  rw [countQ_escapeMySQLName, fieldsListSQL_countQ m0 hnames]
  have h1 : countQ "REPLACE INTO " = 0 := by decide
  have h2 : countQ " (" = 0 := by decide
  have h3 : countQ ") VALUES (" = 0 := by decide
  have h5 : countQ m0.tableName = 0 := List.count_eq_zero.mpr htn.1
  rw [h1, h2, h3, h5]

/-- The SET-clause loop adds one placeholder and one argument per present
field (for benign identifiers). -/
theorem updateSetLoop_countQ :
    ∀ (msg : MsgState) (sc : String) (nc : Bool) (args : List String)
      (sc' : String) (args' : List String),
      updateSetLoop msg sc nc args = .ok (sc', args') →
      (∀ p ∈ msg, '?' ∉ p.1.name.data) →
      countQ sc' = countQ sc + (msg.filter (fun p => reflectHas p.2)).length ∧
      args'.length = args.length + (msg.filter (fun p => reflectHas p.2)).length := by
  intro msg
  induction msg with
  | nil =>
    intro sc nc args sc' args' h _
    simp only [updateSetLoop, GoResult.ok.injEq, Prod.mk.injEq] at h
    obtain ⟨h1, h2⟩ := h
    subst h1
    subst h2
    simp
  | cons p rest ih =>
    intro sc nc args sc' args' h hq
    obtain ⟨fd, v⟩ := p
    simp only [updateSetLoop] at h
    by_cases hpres : reflectHas v
    · rw [if_pos hpres] at h
      split at h
      · obtain ⟨hc, ha⟩ := ih _ _ _ _ _ h (fun q hqm => hq q (by simp [hqm]))
        have hname : countQ fd.name = 0 :=
          List.count_eq_zero.mpr (by simpa using hq (fd, v) (by simp))
        have c1 : countQ " " = 0 := by decide
        have c2 : countQ " = ?" = 1 := by decide
        have c3 : countQ ", " = 0 := by decide
        have hnew : countQ ((if nc then sc ++ ", " else sc) ++ " " ++
            escapeMySQLName fd.name ++ " = ?") = countQ sc + 1 := by
          by_cases hncc : nc
          · rw [if_pos hncc, countQ_append, countQ_append, countQ_append,
              countQ_append, countQ_escapeMySQLName, hname, c1, c2, c3]
          · rw [if_neg hncc, countQ_append, countQ_append, countQ_append,
              countQ_escapeMySQLName, hname, c1, c2]
        rw [hnew] at hc
        constructor
        · rw [hc]
          simp only [List.filter_cons, hpres, if_true, List.length_cons]
          omega
        · rw [ha]
          simp only [List.filter_cons, hpres, if_true, List.length_cons,
            List.length_append, List.length_nil]
          omega
      · exact absurd h (by simp)
      · exact absurd h (by simp)
    · rw [if_neg hpres] at h
      obtain ⟨hc, ha⟩ := ih _ _ _ _ _ h (fun q hqm => hq q (by simp [hqm]))
      constructor
      · rw [hc]
        simp [List.filter_cons, hpres]
      · rw [ha]
        simp [List.filter_cons, hpres]

/-- The primary-key WHERE loop adds one placeholder and one argument per
configured key (for benign declared identifiers). -/
theorem pkWhereLoop_countQ (m : MessageTable) (msg : MsgState)
    (hnames : ∀ fd ∈ m.fields, identOK fd.name) :
    ∀ (pks : List String) (wc : String) (nc : Bool) (args : List String)
      (wc' : String) (args' : List String),
      pkWhereLoop m msg pks wc nc args = .ok (wc', args') →
      countQ wc' = countQ wc + pks.length ∧
      args'.length = args.length + pks.length := by
  intro pks
  induction pks with
  | nil =>
    intro wc nc args wc' args' h
    simp only [pkWhereLoop, GoResult.ok.injEq, Prod.mk.injEq] at h
    obtain ⟨h1, h2⟩ := h
    subst h1
    subst h2
    simp
  | cons pk rest ih =>
    intro wc nc args wc' args' h
    simp only [pkWhereLoop] at h
    split at h
    · exact absurd h (by simp)
    · rename_i field hfind
      split at h
      · exact absurd h (by simp)
      · rename_i pr hprfind
        split at h
        · obtain ⟨hc, ha⟩ := ih _ _ _ _ _ h
          have hpk : field.name = pk := by
            simpa using List.find?_some hfind
          have hmem : field ∈ m.fields := List.mem_of_find?_eq_some hfind
          have hname : countQ pk = 0 := by
            rw [← hpk]
            exact List.count_eq_zero.mpr (hnames field hmem).1
          have c2 : countQ " = ?" = 1 := by decide
          have c3 : countQ " AND " = 0 := by decide
          have hnew : countQ ((if nc then wc ++ " AND " else wc) ++
              escapeMySQLName pk ++ " = ?") = countQ wc + 1 := by
            by_cases hncc : nc
            · rw [if_pos hncc, countQ_append, countQ_append, countQ_append,
                countQ_escapeMySQLName, hname, c2, c3]
            · rw [if_neg hncc, countQ_append, countQ_append,
                countQ_escapeMySQLName, hname, c2]
          rw [hnew] at hc
          constructor
          · rw [hc]
            simp only [List.length_cons]
            omega
          · rw [ha]
            simp only [List.length_cons, List.length_append, List.length_nil]
            omega
        · exact absurd h (by simp)
        · exact absurd h (by simp)

/-- Filtering by presence then mapping over names is a function of the
(name, presence) mask alone — the serialized values play no role. -/
theorem filter_map_name_mask (f : String → String) :
    ∀ (l l' : MsgState),
      l.map (fun p => (p.1.name, reflectHas p.2)) =
        l'.map (fun p => (p.1.name, reflectHas p.2)) →
      (l.filter (fun p => reflectHas p.2)).map (fun p => f p.1.name) =
        (l'.filter (fun p => reflectHas p.2)).map (fun p => f p.1.name) := by
  intro l
  induction l with
  | nil =>
    intro l' hm
    cases l' with
    | nil => rfl
    | cons q qs => simp at hm
  | cons p rest ih =>
    intro l' hm
    cases l' with
    | nil => simp at hm
    | cons q rest' =>
      simp only [List.map_cons, List.cons.injEq, Prod.mk.injEq] at hm
      obtain ⟨⟨hname, hhas⟩, hrest⟩ := hm
      by_cases hpres : reflectHas p.2
      · have hpres' : reflectHas q.2 = true := by rw [← hhas]; exact hpres
        simp only [List.filter_cons, hpres, hpres', if_true, List.map_cons]
        rw [hname, ih rest' hrest]
      · have hpres' : ¬reflectHas q.2 = true := by rw [← hhas]; simpa using hpres
        simp only [List.filter_cons, if_neg hpres, if_neg hpres']
        exact ih rest' hrest

/-- The SET-clause text is a function of the (name, presence) mask — not of
the serialized values. -/
theorem updateSetLoop_text :
    ∀ (msg msg' : MsgState) (sc : String) (nc : Bool) (args args2 : List String)
      (sc' sc2 : String) (args' args2' : List String),
      msg.map (fun p => (p.1.name, reflectHas p.2)) =
        msg'.map (fun p => (p.1.name, reflectHas p.2)) →
      updateSetLoop msg sc nc args = .ok (sc', args') →
      updateSetLoop msg' sc nc args2 = .ok (sc2, args2') →
      sc' = sc2 := by
  intro msg
  induction msg with
  | nil =>
    intro msg' sc nc args args2 sc' sc2 args' args2' hm h1 h2
    cases msg' with
    | cons q qs => simp at hm
    | nil =>
      simp only [updateSetLoop, GoResult.ok.injEq, Prod.mk.injEq] at h1 h2
      rw [← h1.1, ← h2.1]
  | cons p rest ih =>
    intro msg' sc nc args args2 sc' sc2 args' args2' hm h1 h2
    cases msg' with
    | nil => simp at hm
    | cons q rest' =>
      obtain ⟨fd, v⟩ := p
      obtain ⟨fd2, v2⟩ := q
      simp only [List.map_cons, List.cons.injEq, Prod.mk.injEq] at hm
      obtain ⟨⟨hname, hhas⟩, hrest⟩ := hm
      simp only [updateSetLoop] at h1 h2
      by_cases hpres : reflectHas v
      · rw [if_pos hpres] at h1
        rw [if_pos (by rw [← hhas]; exact hpres)] at h2
        split at h1
        · split at h2
          · rw [← hname] at h2
            exact ih rest' _ _ _ _ _ _ _ _ hrest h1 h2
          · exact absurd h2 (by simp)
          · exact absurd h2 (by simp)
        · exact absurd h1 (by simp)
        · exact absurd h1 (by simp)
      · rw [if_neg hpres] at h1
        rw [if_neg (by rw [← hhas]; exact hpres)] at h2
        exact ih rest' _ _ _ _ _ _ _ _ hrest h1 h2

/-- The primary-key WHERE text depends only on the table and the key list,
never on the record's values. -/
theorem pkWhereLoop_text (m : MessageTable) (msg msg' : MsgState) :
    ∀ (pks : List String) (wc : String) (nc : Bool) (args args2 : List String)
      (wc' wc2 : String) (args' args2' : List String),
      pkWhereLoop m msg pks wc nc args = .ok (wc', args') →
      pkWhereLoop m msg' pks wc nc args2 = .ok (wc2, args2') →
      wc' = wc2 := by
  intro pks
  induction pks with
  | nil =>
    intro wc nc args args2 wc' wc2 args' args2' h1 h2
    simp only [pkWhereLoop, GoResult.ok.injEq, Prod.mk.injEq] at h1 h2
    rw [← h1.1, ← h2.1]
  | cons pk rest ih =>
    intro wc nc args args2 wc' wc2 args' args2' h1 h2
    simp only [pkWhereLoop] at h1 h2
    split at h1
    · exact absurd h1 (by simp)
    · split at h2
      · exact absurd h2 (by simp)
      · split at h1
        · exact absurd h1 (by simp)
        · split at h1
          · split at h2
            · exact absurd h2 (by simp)
            · split at h2
              · exact ih _ _ _ _ _ _ _ _ h1 h2
              · exact absurd h2 (by simp)
              · exact absurd h2 (by simp)
          · exact absurd h1 (by simp)
          · exact absurd h1 (by simp)

/-- A successful batch statement's text: the table's column list and one
placeholder group per record, where the group is the sliced repetition of
`"?, "`. -/
theorem batch_sql_shape (t : MessageTable) (msgs : List MsgState)
    (sa : SqlWithArgs) (h : GetBatchInsertSQLWithArgs t msgs = .ok sa) :
    ∃ g args,
      sliceDropLast2 (repeatStr "?, " t.fields.length) = .ok g ∧
      serializeAll msgs.flatten = .ok args ∧
      sa = ⟨"INSERT INTO " ++ escapeMySQLName t.tableName ++ " (" ++
          t.fieldsListSQL ++ ") VALUES (" ++
          goJoin "), (" (List.replicate msgs.length g) ++ ")",
        args⟩ := by
  cases msgs with
  | nil => simp [GetBatchInsertSQLWithArgs] at h
  | cons first rest =>
    simp only [GetBatchInsertSQLWithArgs] at h
    split at h
    · exact absurd h (by simp)
    · split at h
      · exact absurd h (by simp)
      · split at h
        · rename_i args hargs
          split at h
          · rename_i g hg
            rw [GoResult.ok.injEq] at h
            exact ⟨g, args, hg, hargs, h.symm⟩
          · exact absurd h (by simp)
          · exact absurd h (by simp)
        · exact absurd h (by simp)
        · exact absurd h (by simp)

/-- A successful REPLACE statement's text and arguments. -/
theorem replace_sql_shape (t : MessageTable) (msg : MsgState)
    (sa : SqlWithArgs) (h : GetReplaceSQLWithArgs t msg = .ok sa) :
    ∃ args,
      serializeAll msg = .ok args ∧
      sa = ⟨t.replaceSQL ++ trimSuffix (repeatStr "?, " args.length) ", " ++ ")",
        args⟩ := by
  simp only [GetReplaceSQLWithArgs] at h
  split at h
  · rename_i args hargs
    rw [GoResult.ok.injEq] at h
    exact ⟨args, hargs, h.symm⟩
  · exact absurd h (by simp)
  · exact absurd h (by simp)

/-- The successful value-group slice is the trimmed repetition, with one
placeholder per declared field. -/
theorem slice_group_countQ (n : Nat) (g : String) (hn : 1 ≤ n)
    (hg : sliceDropLast2 (repeatStr "?, " n) = .ok g) :
    countQ g = n := by
  obtain ⟨tail, htail⟩ := repeatStr_qcs_suffix n hn
  have hsuf : (", " : String).data.isSuffixOf (repeatStr "?, " n).data := by
    rw [List.isSuffixOf_iff_suffix]
    exact ⟨tail, by simpa using htail⟩
  have hlen : 2 ≤ (repeatStr "?, " n).data.length := by
    rw [repeatStr_data_length]
    have : ("?, " : String).data.length = 3 := by decide
    rw [this]
    omega
  rw [sliceDropLast2_eq_trim _ hlen hsuf, GoResult.ok.injEq] at hg
  rw [← hg, countQ_trimSuffix_comma_space, countQ_repeatStr_qcs]

/-- `GetBatchInsertSQLWithArgs` rejects a single batch beyond the limit
with the batch-size error before any statement text is built. -/
theorem batch_builder_oversize (m : MessageTable) (msgs : List MsgState)
    (h : BatchInsertMaxSize < msgs.length) :
    GetBatchInsertSQLWithArgs m msgs = .error .batchSizeExceeded := by
  cases msgs with
  | nil => simp [BatchInsertMaxSize] at h
  | cons a rest =>
    simp only [GetBatchInsertSQLWithArgs]
    rw [if_pos (by omega)]

/-- C4: `BatchInsert` on 1500 records splits them into the consecutive
chunks `take 1000` and `drop 1000` and issues exactly one INSERT statement
per chunk, sequentially, covering 1000 then 500 records (one argument per
field per record); and a single batch handed to the per-chunk builder that
exceeds the limit is rejected with the batch-size error, never silently
truncated. -/
theorem C4_batch_insert_splits_1500 (tables : List (String × MessageTable))
    (t : MessageTable) (tn : String) (msgs : List PbMessage)
    (hlen : msgs.length = 1500)
    (hlook : tables.lookup tn = some t)
    (htype : ∀ msg ∈ msgs, msg.typeName = tn)
    (hdesc : ∀ msg ∈ msgs, msg.state.map Prod.fst = t.fields)
    (hf : 1 ≤ t.fields.length)
    (hser : ∀ msg ∈ msgs, ∀ p ∈ msg.state,
      ∃ s, SerializeFieldAsString p.1 p.2 = .ok s) :
    (chunksGo msgs = [msgs.take BatchInsertMaxSize, msgs.drop BatchInsertMaxSize] ∧
      (msgs.take BatchInsertMaxSize).length = 1000 ∧
      (msgs.drop BatchInsertMaxSize).length = 500) ∧
    (∃ sa1 sa2,
      BatchInsert tables msgs = .ok [sa1, sa2] ∧
      GetBatchInsertSQLWithArgs t
        ((msgs.take BatchInsertMaxSize).map PbMessage.state) = .ok sa1 ∧
      GetBatchInsertSQLWithArgs t
        ((msgs.drop BatchInsertMaxSize).map PbMessage.state) = .ok sa2 ∧
      sa1.Args.length = 1000 * t.fields.length ∧
      sa2.Args.length = 500 * t.fields.length) ∧
    (∀ (m' : MessageTable) (msgs' : List MsgState),
      BatchInsertMaxSize < msgs'.length →
      GetBatchInsertSQLWithArgs m' msgs' = .error .batchSizeExceeded) := by
  have htake : (msgs.take BatchInsertMaxSize).length = 1000 := by
    simp [List.length_take, hlen, BatchInsertMaxSize]
  have hdrop : (msgs.drop BatchInsertMaxSize).length = 500 := by
    simp [List.length_drop, hlen, BatchInsertMaxSize]
  have hchunks : chunksGo msgs =
      [msgs.take BatchInsertMaxSize, msgs.drop BatchInsertMaxSize] := by
    rw [chunksGo_long msgs (by simp [BatchInsertMaxSize, hlen]),
      chunksGo_short (msgs.drop BatchInsertMaxSize)
        (by intro hx; rw [hx] at hdrop; simp at hdrop)
        (by rw [hdrop]; simp [BatchInsertMaxSize])]
  obtain ⟨sa1, hsa1, hsa1len⟩ :=
    batch_builder_ok t ((msgs.take BatchInsertMaxSize).map PbMessage.state)
      (by
        intro hx
        have h0 : ((msgs.take BatchInsertMaxSize).map PbMessage.state).length = 0 := by
          rw [hx]; rfl
        rw [List.length_map, htake] at h0
        exact absurd h0 (by decide))
      (by rw [List.length_map, htake]; decide)
      (fun msg hm => by
        obtain ⟨pm, hpm, rfl⟩ := List.mem_map.mp hm
        exact hdesc pm (List.take_subset _ _ hpm))
      hf
      (fun msg hm p hp => by
        obtain ⟨pm, hpm, rfl⟩ := List.mem_map.mp hm
        exact hser pm (List.take_subset _ _ hpm) p hp)
  obtain ⟨sa2, hsa2, hsa2len⟩ :=
    batch_builder_ok t ((msgs.drop BatchInsertMaxSize).map PbMessage.state)
      (by
        intro hx
        have h0 : ((msgs.drop BatchInsertMaxSize).map PbMessage.state).length = 0 := by
          rw [hx]; rfl
        rw [List.length_map, hdrop] at h0
        exact absurd h0 (by decide))
      (by rw [List.length_map, hdrop]; decide)
      (fun msg hm => by
        obtain ⟨pm, hpm, rfl⟩ := List.mem_map.mp hm
        exact hdesc pm (List.drop_subset _ _ hpm))
      hf
      (fun msg hm p hp => by
        obtain ⟨pm, hpm, rfl⟩ := List.mem_map.mp hm
        exact hser pm (List.drop_subset _ _ hpm) p hp)
  refine ⟨⟨hchunks, htake, hdrop⟩, ⟨sa1, sa2, ?_, hsa1, hsa2, ?_, ?_⟩,
    fun m' msgs' h => batch_builder_oversize m' msgs' h⟩
  · have hne : msgs ≠ [] := by
      intro hx
      rw [hx] at hlen
      simp at hlen
    simp only [BatchInsert]
    rw [if_neg hne, hchunks]
    cases hc1 : msgs.take BatchInsertMaxSize with
    | nil => rw [hc1] at htake; simp at htake
    | cons f1 cs1 =>
      cases hc2 : msgs.drop BatchInsertMaxSize with
      | nil => rw [hc2] at hdrop; simp at hdrop
      | cons f2 cs2 =>
        have hf1 : f1 ∈ msgs := List.take_subset _ _ (by rw [hc1]; simp)
        have hf2 : f2 ∈ msgs := List.drop_subset _ _ (by rw [hc2]; simp)
        rw [hc1] at hsa1
        rw [hc2] at hsa2
        simp only [execChunks, htype f1 hf1, hlook, hsa1, htype f2 hf2, hsa2]
  · rw [hsa1len, List.length_map, htake]
  · rw [hsa2len, List.length_map, hdrop]

/-- Witness for C4: 1500 identical one-field records against the registered
element table yield exactly two statements covering 1000 and then 500
records. -/
theorem C4_batch_insert_splits_1500_witness :
    ∃ sa1 sa2,
      BatchInsert [("ElemT", tblElem)] (List.replicate 1500 msgB) = .ok [sa1, sa2] ∧
      sa1.Args.length = 1000 * tblElem.fields.length ∧
      sa2.Args.length = 500 * tblElem.fields.length := by
  obtain ⟨-, ⟨sa1, sa2, hb, -, -, h1, h2⟩, -⟩ :=
    C4_batch_insert_splits_1500 [("ElemT", tblElem)] tblElem "ElemT"
      (List.replicate 1500 msgB)
      (by rw [List.length_replicate])
      (by rfl)
      (by
        intro msg hm
        rw [List.eq_of_mem_replicate hm]
        rfl)
      (by
        intro msg hm
        rw [List.eq_of_mem_replicate hm]
        rfl)
      (by decide)
      (by
        intro msg hm p hp
        rw [List.eq_of_mem_replicate hm] at hp
        simp only [msgB, List.mem_singleton] at hp
        subst hp
        exact ⟨"1", by decide⟩)
  exact ⟨sa1, sa2, hb, h1, h2⟩

/-- C2 counterexample: `Init` on a zero-field descriptor counts
`strings.Count("", ",") + 1 = 1` placeholder, so the cached INSERT template
carries one `?` while `GetInsertSQLWithArgs` supplies zero arguments — the
placeholder count does not equal the argument-list length. -/
theorem C2_counterexample_zero_field_insert :
    GetInsertSQLWithArgs tblEmpty [] =
      .ok ⟨"INSERT INTO empty_msg () VALUES (?)", []⟩ ∧
    countQ "INSERT INTO empty_msg () VALUES (?)" = 1 ∧
    ([] : List String).length = 0 := by
  decide

/-- C2 (amended): for every table registered over a descriptor with at
least one declared field and MySQL-benign identifiers (no `?` or `,`, true
of protobuf identifiers), every generated SqlWithArgs of the INSERT, batch
INSERT, REPLACE, upsert, UPDATE-by-key, DELETE-by-key and SELECT-by-key
builders carries exactly one `?` per argument-list entry, emitted
left-to-right alongside its argument; the predicate-based SELECT/DELETE
variants add placeholder-free builder text so the counts balance whenever
the caller-supplied predicate is balanced; and no serialized field value
reaches statement text: each builder's text is a function of the schema,
the record count, and the field presence mask alone. -/
theorem C2_placeholders_match_args (m0 : MessageTable)
    (htn : identOK m0.tableName)
    (hnames : ∀ fd ∈ m0.fields, identOK fd.name)
    (hne : m0.fields ≠ []) :
    (∀ (msg : MsgState) (sa : SqlWithArgs),
      GetInsertSQLWithArgs (Init m0) msg = .ok sa →
      msg.length = m0.fields.length →
      sa.Sql = (Init m0).insertSQLTemplate ∧ countQ sa.Sql = sa.Args.length) ∧
    (∀ (msgs : List MsgState) (sa : SqlWithArgs),
      GetBatchInsertSQLWithArgs (Init m0) msgs = .ok sa →
      (∀ msg ∈ msgs, msg.length = m0.fields.length) →
      countQ sa.Sql = sa.Args.length) ∧
    (∀ (msgs msgs' : List MsgState) (sa sa' : SqlWithArgs),
      GetBatchInsertSQLWithArgs (Init m0) msgs = .ok sa →
      GetBatchInsertSQLWithArgs (Init m0) msgs' = .ok sa' →
      msgs.length = msgs'.length → sa.Sql = sa'.Sql) ∧
    (∀ (msg : MsgState) (sa : SqlWithArgs),
      GetReplaceSQLWithArgs (Init m0) msg = .ok sa →
      countQ sa.Sql = sa.Args.length) ∧
    (∀ (msg msg' : MsgState) (sa sa' : SqlWithArgs),
      GetReplaceSQLWithArgs (Init m0) msg = .ok sa →
      GetReplaceSQLWithArgs (Init m0) msg' = .ok sa' →
      msg.length = msg'.length → sa.Sql = sa'.Sql) ∧
    (∀ (msg : MsgState) (sa : SqlWithArgs),
      GetInsertOnDupUpdateSQLWithArgs (Init m0) msg = .ok sa →
      msg.length = m0.fields.length →
      (∀ p ∈ msg, '?' ∉ p.1.name.data) →
      countQ sa.Sql = sa.Args.length) ∧
    (∀ (msg msg' : MsgState) (sa sa' : SqlWithArgs),
      GetInsertOnDupUpdateSQLWithArgs (Init m0) msg = .ok sa →
      GetInsertOnDupUpdateSQLWithArgs (Init m0) msg' = .ok sa' →
      msg.map (fun p => (p.1.name, reflectHas p.2)) =
        msg'.map (fun p => (p.1.name, reflectHas p.2)) →
      sa.Sql = sa'.Sql) ∧
    (∀ (msg : MsgState) (sa : SqlWithArgs),
      GetUpdateSQLWithArgs (Init m0) msg = .ok sa →
      (∀ p ∈ msg, '?' ∉ p.1.name.data) →
      countQ sa.Sql = sa.Args.length) ∧
    (∀ (msg msg' : MsgState) (sa sa' : SqlWithArgs),
      GetUpdateSQLWithArgs (Init m0) msg = .ok sa →
      GetUpdateSQLWithArgs (Init m0) msg' = .ok sa' →
      msg.map (fun p => (p.1.name, reflectHas p.2)) =
        msg'.map (fun p => (p.1.name, reflectHas p.2)) →
      sa.Sql = sa'.Sql) ∧
    (∀ (msg : MsgState) (sa : SqlWithArgs),
      GetDeleteSQLWithArgs (Init m0) msg = .ok sa →
      sa.Sql = (Init m0).deleteByPKTemplate ∧
      countQ sa.Sql = 1 ∧ sa.Args.length = 1) ∧
    (∀ (k v : String) (sa : SqlWithArgs),
      GetSelectSQLByKVWithArgs (Init m0) k v = .ok sa →
      countQ sa.Sql = 1 ∧ sa.Args.length = 1) ∧
    (∀ (w : String) (wargs : List String),
      countQ w = wargs.length →
      countQ (GetSelectSQLByWhereWithArgs (Init m0) w wargs).Sql =
        (GetSelectSQLByWhereWithArgs (Init m0) w wargs).Args.length ∧
      countQ (GetDeleteSQLByWhereWithArgs (Init m0) w wargs).Sql =
        (GetDeleteSQLByWhereWithArgs (Init m0) w wargs).Args.length) := by
  have hn1 : 1 ≤ m0.fields.length := List.length_pos.mpr hne
  have hITn : (Init m0).tableName = m0.tableName := rfl
  have hwq : countQ " WHERE " = 0 := by decide
  have htnq : countQ m0.tableName = 0 := List.count_eq_zero.mpr htn.1
  have hinsert : ∀ (msg : MsgState) (sa : SqlWithArgs),
      GetInsertSQLWithArgs (Init m0) msg = .ok sa →
      ∃ args, serializeAll msg = .ok args ∧
        sa = ⟨(Init m0).insertSQLTemplate, args⟩ := by
    intro msg sa h
    simp only [GetInsertSQLWithArgs] at h
    split at h
    · rename_i args hargs
      rw [GoResult.ok.injEq] at h
      exact ⟨args, hargs, h.symm⟩
    · exact absurd h (by simp)
    · exact absurd h (by simp)
  refine ⟨?_, ?_, ?_, ?_, ?_, ?_, ?_, ?_, ?_, ?_, ?_, ?_⟩
  · -- INSERT
    intro msg sa h hlen
    obtain ⟨args, hargs, rfl⟩ := hinsert msg sa h
    refine ⟨rfl, ?_⟩
    dsimp only
    rw [insertSQLTemplate_countQ m0 htn hnames hne,
      serializeAll_length msg args hargs, hlen]
  · -- batch INSERT counts
    intro msgs sa h hlens
    obtain ⟨g, args, hg, hargs, rfl⟩ := batch_sql_shape (Init m0) msgs sa h
    dsimp only
    simp only [countQ_append]
    rw [hITn, countQ_escapeMySQLName, htnq, fieldsListSQL_countQ m0 hnames,
      countQ_goJoin_sum "), (" (by decide)]
    have hgq : countQ g = m0.fields.length := by
      have := slice_group_countQ m0.fields.length g hn1 (by
        simpa [Init_fields] using hg)
      simpa using this
    rw [List.map_replicate, hgq, List.sum_replicate, smul_eq_mul]
    rw [serializeAll_length _ _ hargs,
      flatten_length_const msgs m0.fields.length hlens]
    have h1 : countQ "INSERT INTO " = 0 := by decide
    have h2 : countQ " (" = 0 := by decide
    have h3 : countQ ") VALUES (" = 0 := by decide
    have h4 : countQ ")" = 0 := by decide
    rw [h1, h2, h3, h4]
    omega
  · -- batch INSERT text determinism
    intro msgs msgs' sa sa' h h' hlen
    obtain ⟨g, args, hg, hargs, rfl⟩ := batch_sql_shape (Init m0) msgs sa h
    obtain ⟨g', args', hg', hargs', rfl⟩ := batch_sql_shape (Init m0) msgs' sa' h'
    have hgg : g = g' := by
      rw [hg] at hg'
      exact (GoResult.ok.injEq _ _).mp hg'
    dsimp only
    rw [hlen, hgg]
  · -- REPLACE counts
    intro msg sa h
    obtain ⟨args, hargs, rfl⟩ := replace_sql_shape (Init m0) msg sa h
    dsimp only
    simp only [countQ_append]
    rw [countQ_trimSuffix_comma_space, countQ_repeatStr_qcs,
      replaceSQL_countQ m0 htn hnames]
    have h4 : countQ ")" = 0 := by decide
    rw [h4]
    omega
  · -- REPLACE text determinism
    intro msg msg' sa sa' h h' hlen
    obtain ⟨args, hargs, rfl⟩ := replace_sql_shape (Init m0) msg sa h
    obtain ⟨args', hargs', rfl⟩ := replace_sql_shape (Init m0) msg' sa' h'
    dsimp only
    rw [serializeAll_length _ _ hargs, serializeAll_length _ _ hargs', hlen]
  · -- upsert counts
    intro msg sa h hlen hq
    simp only [GetInsertOnDupUpdateSQLWithArgs] at h
    split at h
    · rename_i insertSA hins
      split at h
      · rename_i cs uargs hdup
        obtain ⟨hcs, hulen⟩ := dupUpdateClauses_spec msg cs uargs hdup
        obtain ⟨args, hargs, rfl⟩ := hinsert msg insertSA hins
        have hones : ∀ s ∈ cs, countQ s = 1 := by
          intro s hs
          rw [hcs] at hs
          obtain ⟨p, hp, rfl⟩ := List.mem_map.mp hs
          rw [countQ_append, countQ_escapeMySQLName]
          have hq0 : countQ p.1.name = 0 :=
            List.count_eq_zero.mpr (hq p (List.mem_filter.mp hp).1)
          rw [hq0]
          decide
        split at h
        · rw [GoResult.ok.injEq] at h
          subst h
          dsimp only
          rw [insertSQLTemplate_countQ m0 htn hnames hne,
            serializeAll_length msg args hargs, hlen]
        · rw [GoResult.ok.injEq] at h
          subst h
          dsimp only
          simp only [countQ_append]
          rw [insertSQLTemplate_countQ m0 htn hnames hne,
            countQ_goJoin_ones ", " (by decide) cs hones]
          have hon : countQ " ON DUPLICATE KEY UPDATE " = 0 := by decide
          rw [hon]
          simp only [List.length_append]
          rw [serializeAll_length msg args hargs, hlen, hulen, hcs,
            List.length_map]
          omega
      · exact absurd h (by simp)
      · exact absurd h (by simp)
    · exact absurd h (by simp)
    · exact absurd h (by simp)
  · -- upsert text determinism
    intro msg msg' sa sa' h h' hmask
    simp only [GetInsertOnDupUpdateSQLWithArgs] at h h'
    split at h
    · rename_i insertSA hins
      split at h
      · rename_i cs uargs hdup
        obtain ⟨hcs, -⟩ := dupUpdateClauses_spec msg cs uargs hdup
        obtain ⟨args, hargs, rfl⟩ := hinsert msg insertSA hins
        split at h'
        · rename_i insertSA' hins'
          split at h'
          · rename_i cs' uargs' hdup'
            obtain ⟨hcs', -⟩ := dupUpdateClauses_spec msg' cs' uargs' hdup'
            obtain ⟨args', hargs', rfl⟩ := hinsert msg' insertSA' hins'
            have hcseq : cs = cs' := by
              rw [hcs, hcs']
              exact filter_map_name_mask
                (fun s => escapeMySQLName s ++ " = ?") msg msg' hmask
            split at h
            · rename_i hnil
              rw [GoResult.ok.injEq] at h
              subst h
              rw [if_pos (by rw [← hcseq]; exact hnil)] at h'
              rw [GoResult.ok.injEq] at h'
              subst h'
              rfl
            · rename_i hnnil
              rw [GoResult.ok.injEq] at h
              subst h
              rw [if_neg (by rw [← hcseq]; exact hnnil)] at h'
              rw [GoResult.ok.injEq] at h'
              subst h'
              dsimp only
              rw [hcseq]
          · exact absurd h' (by simp)
          · exact absurd h' (by simp)
        · exact absurd h' (by simp)
        · exact absurd h' (by simp)
      · exact absurd h (by simp)
      · exact absurd h (by simp)
    · exact absurd h (by simp)
    · exact absurd h (by simp)
  · -- UPDATE counts
    intro msg sa h hq
    simp only [GetUpdateSQLWithArgs, GetUpdateSetWithArgs] at h
    split at h
    · rename_i sc sargs hset
      split at h
      · exact absurd h (by simp)
      · split at h
        · rename_i wc wargs hwc
          split at h
          · exact absurd h (by simp)
          · rw [GoResult.ok.injEq] at h
            subst h
            obtain ⟨hscq, hslen⟩ := updateSetLoop_countQ msg "" false [] sc sargs hset hq
            obtain ⟨hwcq, hwlen⟩ :=
              pkWhereLoop_countQ (Init m0) msg
                (by rw [Init_fields]; exact hnames) (Init m0).primaryKey
                "" false [] wc wargs hwc
            dsimp only
            simp only [countQ_append]
            rw [hITn, countQ_escapeMySQLName, htnq, hscq, hwcq]
            have h1 : countQ "UPDATE " = 0 := by decide
            have h2 : countQ " SET " = 0 := by decide
            have h0 : countQ "" = 0 := by decide
            rw [h1, h2, hwq, h0]
            simp only [List.length_append]
            rw [hslen, hwlen]
            simp only [List.length_nil]
            omega
        · exact absurd h (by simp)
        · exact absurd h (by simp)
    · exact absurd h (by simp)
    · exact absurd h (by simp)
  · -- UPDATE text determinism
    intro msg msg' sa sa' h h' hmask
    simp only [GetUpdateSQLWithArgs, GetUpdateSetWithArgs] at h h'
    split at h
    · rename_i sc sargs hset
      split at h
      · exact absurd h (by simp)
      · split at h
        · rename_i wc wargs hwc
          split at h
          · exact absurd h (by simp)
          · rw [GoResult.ok.injEq] at h
            subst h
            split at h'
            · rename_i sc' sargs' hset'
              split at h'
              · exact absurd h' (by simp)
              · split at h'
                · rename_i wc' wargs' hwc'
                  split at h'
                  · exact absurd h' (by simp)
                  · rw [GoResult.ok.injEq] at h'
                    subst h'
                    have hsc : sc = sc' :=
                      updateSetLoop_text msg msg' "" false [] [] sc sc'
                        sargs sargs' hmask hset hset'
                    have hwceq : wc = wc' :=
                      pkWhereLoop_text (Init m0) msg msg'
                        (Init m0).primaryKey "" false [] [] wc wc'
                        wargs wargs' hwc hwc'
                    dsimp only
                    rw [hsc, hwceq]
                · exact absurd h' (by simp)
                · exact absurd h' (by simp)
            · exact absurd h' (by simp)
            · exact absurd h' (by simp)
        · exact absurd h (by simp)
        · exact absurd h (by simp)
    · exact absurd h (by simp)
    · exact absurd h (by simp)
  · -- DELETE by primary key
    intro msg sa h
    simp only [GetDeleteSQLWithArgs] at h
    split at h
    · exact absurd h (by simp)
    · rename_i pkfd hpf
      split at h
      · exact absurd h (by simp)
      · rename_i pr hfindmsg
        split at h
        · rw [GoResult.ok.injEq] at h
          subst h
          refine ⟨rfl, ?_, rfl⟩
          dsimp only
          rw [Init_deleteByPKTemplate, hpf]
          have hmem : pkfd ∈ m0.fields := by
            rw [Init_primaryKeyField] at hpf
            rcases hm : m0.primaryKey with _ | ⟨pk, rest⟩
            · rw [hm] at hpf
              simp at hpf
            · rw [hm] at hpf
              exact List.mem_of_find?_eq_some hpf
          have hnq : countQ pkfd.name = 0 :=
            List.count_eq_zero.mpr (hnames pkfd hmem).1
          simp only [countQ_append]
          rw [countQ_escapeMySQLName, countQ_escapeMySQLName, htnq, hnq]
          decide
        · exact absurd h (by simp)
        · exact absurd h (by simp)
  · -- SELECT by key-value
    intro k v sa h
    simp only [GetSelectSQLByKVWithArgs] at h
    split at h
    · exact absurd h (by simp)
    · rename_i fd hfind
      rw [GoResult.ok.injEq] at h
      subst h
      refine ⟨?_, rfl⟩
      dsimp only
      have hk : fd.name = k := by
        have := List.find?_some hfind
        simpa using this
      have hmem : fd ∈ m0.fields := by
        have := List.mem_of_find?_eq_some hfind
        rwa [Init_fields] at this
      have hkq : countQ k = 0 := by
        rw [← hk]
        exact List.count_eq_zero.mpr (hnames fd hmem).1
      simp only [countQ_append]
      rw [countQ_escapeMySQLName, hkq, selectFieldsSQL_countQ m0 htn hnames, hwq]
      decide
  · -- predicate variants
    intro w wargs hw
    constructor
    · simp only [GetSelectSQLByWhereWithArgs]
      simp only [countQ_append]
      rw [selectFieldsSQL_countQ m0 htn hnames, hwq, hw]
      have hs : countQ ";" = 0 := by decide
      rw [hs]
      omega
    · simp only [GetDeleteSQLByWhereWithArgs]
      simp only [countQ_append]
      rw [hITn, countQ_escapeMySQLName, htnq, hwq, hw]
      have hdf : countQ "DELETE FROM " = 0 := by decide
      rw [hdf]
      omega

/-- Witness for C2 (amended): the INSERT builder on the registered pair
table with a concrete two-field record. -/
theorem C2_placeholders_match_args_witness :
    (identOK m0Pair.tableName ∧ (∀ fd ∈ m0Pair.fields, identOK fd.name) ∧
      m0Pair.fields ≠ [] ∧
      GetInsertSQLWithArgs (Init m0Pair) [(fdId, .vUint 5), (fdName, .vStr "a")] =
        .ok ⟨(Init m0Pair).insertSQLTemplate, ["5", "a"]⟩ ∧
      ([(fdId, FieldVal.vUint 5), (fdName, FieldVal.vStr "a")] : MsgState).length =
        m0Pair.fields.length) ∧
    ((⟨(Init m0Pair).insertSQLTemplate, ["5", "a"]⟩ : SqlWithArgs).Sql =
        (Init m0Pair).insertSQLTemplate ∧
      countQ (⟨(Init m0Pair).insertSQLTemplate, ["5", "a"]⟩ : SqlWithArgs).Sql =
        (⟨(Init m0Pair).insertSQLTemplate, ["5", "a"]⟩ : SqlWithArgs).Args.length) :=
  ⟨⟨by decide, by decide, by decide, by decide, by decide⟩,
   (C2_placeholders_match_args m0Pair (by decide) (by decide) (by decide)).1
     [(fdId, .vUint 5), (fdName, .vStr "a")]
     ⟨(Init m0Pair).insertSQLTemplate, ["5", "a"]⟩ (by decide) (by decide)⟩

/-- C10: a FindAll-style read never reads the destination container's prior
contents — its outcome is identical for any two initial contents — and on a
successful call the container holds exactly one decoded element per row the
executed query returned. -/
theorem C10_findall_replaces_container_contents :
    (∀ (env : GoEnv) (p : PbMysqlDB) (fields : List FieldDescr)
        (l1 l2 : List MsgState) (w : String) (a : List String),
      FindAllByWhereWithArgs env p ⟨fields, l1⟩ w a =
        FindAllByWhereWithArgs env p ⟨fields, l2⟩ w a ∧
      FindMultiByWhereWithArgs env p ⟨fields, l1⟩ w a =
        FindMultiByWhereWithArgs env p ⟨fields, l2⟩ w a) ∧
    (∀ (env : GoEnv) (p : PbMysqlDB) (dest : DestState) (w : String)
        (a : List String) (lf : FieldDescr) (tn : String)
        (table : MessageTable) (elems : List MsgState),
      scanListField dest.fields none = .ok lf →
      lf.msgTypeName = some tn →
      p.Tables.lookup tn = some table →
      parseRowsLoop env table.fields
        (p.query (GetSelectSQLByWhereWithArgs table w a)) = .ok elems →
      FindAllByWhereWithArgs env p dest w a =
        ⟨[GetSelectSQLByWhereWithArgs table w a], .ok ⟨dest.fields, elems⟩⟩ ∧
      FindMultiByWhereWithArgs env p dest w a =
        ⟨[GetSelectSQLByWhereWithArgs table w a], .ok ⟨dest.fields, elems⟩⟩ ∧
      elems.length =
        (p.query (GetSelectSQLByWhereWithArgs table w a)).length) := by
  constructor
  · intro env p fields l1 l2 w a
    exact ⟨rfl, rfl⟩
  · intro env p dest w a lf tn table elems h1 h2 h3 h4
    refine ⟨?_, ?_, parseRowsLoop_length env table.fields _ _ h4⟩ <;>
      simp [FindAllByWhereWithArgs, FindMultiByWhereWithArgs, h1, h2, h3, h4]

/-- Witness for C10: a destination whose container already holds a stale
element receives exactly the freshly decoded row. -/
theorem C10_findall_replaces_container_contents_witness :
    (FindAllByWhereWithArgs env0 pOneRow ⟨[fdList1], [[(fdId, .vUint 99)]]⟩ "1=1" [] =
        FindAllByWhereWithArgs env0 pOneRow ⟨[fdList1], []⟩ "1=1" []) ∧
    (scanListField destOneList.fields none = .ok fdList1 ∧
      fdList1.msgTypeName = some "ElemT" ∧
      pOneRow.Tables.lookup "ElemT" = some tblElem ∧
      parseRowsLoop env0 tblElem.fields
        (pOneRow.query (GetSelectSQLByWhereWithArgs tblElem "1=1" [])) =
        .ok [[(fdId, .vUint 7)]] ∧
      FindAllByWhereWithArgs env0 pOneRow destOneList "1=1" [] =
        ⟨[GetSelectSQLByWhereWithArgs tblElem "1=1" []],
          .ok ⟨destOneList.fields, [[(fdId, .vUint 7)]]⟩⟩) :=
  ⟨(C10_findall_replaces_container_contents.1 env0 pOneRow [fdList1]
      [[(fdId, .vUint 99)]] [] "1=1" []).1,
   by
    refine ⟨by rfl, by decide, by rfl, by decide, ?_⟩
    exact (C10_findall_replaces_container_contents.2 env0 pOneRow destOneList
      "1=1" [] fdList1 "ElemT" tblElem [[(fdId, .vUint 7)]] (by rfl) (by decide)
      (by rfl) (by decide)).1⟩
